import Mathlib

/-!
Verification development for the beat-synchronized flight system:
shallow embedding of the beat classifier (src/audio/beatDetector),
the turn controller (src/camera/turnController.ts), the straight-segment
flight path (src/camera/flightPath), and the frame loop (src/main.ts),
with theorems settling the frozen behavioural claims.

Numeric model: JavaScript numbers are embedded as exact rationals
(or exact reals where square roots occur); timestamps from
performance.now() are passed explicitly as rational arguments.
-/

namespace BeatDet

/-- Energy must exceed rolling average by this factor (source constant 1.5). -/
def BEAT_THRESHOLD : ℚ := 3/2

/-- Capacity of the short rolling window (source constant 43). -/
def HISTORY_SIZE : ℕ := 43

/-- Minimum time between beats in milliseconds (source constant 100). -/
def MIN_BEAT_INTERVAL_MS : ℚ := 100

/-- Capacity of the long rolling window (source constant 120). -/
def TRANSITION_HISTORY_SIZE : ℕ := 120

/-- Transition ratio threshold (source constant 2.0). -/
def TRANSITION_THRESHOLD : ℚ := 2

/-- Transition debounce interval in milliseconds (source constant 8000). -/
def MIN_TRANSITION_INTERVAL_MS : ℚ := 8000

/-- Heavy-beat factor over the rolling average (source constant 2.5). -/
def HEAVY_BEAT_THRESHOLD : ℚ := 5/2

/-- Number of pre-spike frames inspected for silence (source constant 12). -/
def HEAVY_BEAT_PRE_SILENCE_FRAMES : ℕ := 12

/-- Pre-spike energy must be below this factor of the average (source 0.5). -/
def HEAVY_BEAT_LOW_ENERGY_FACTOR : ℚ := 1/2

/-- Heavy-beat-shift debounce interval in milliseconds (source constant 2000). -/
def MIN_HEAVY_BEAT_INTERVAL_MS : ℚ := 2000

/-- The module-level mutable state of the beat detector. -/
structure BeatState where
  energyHistory : List ℚ
  longTermEnergyHistory : List ℚ
  lastBeatTime : ℚ
  lastTransitionTime : ℚ
  lastHeavyBeatShiftTime : ℚ
  currentBeatIntensity : ℚ
  deriving DecidableEq, Repr

/-- State after resetBeatDetection (also the initial module state). -/
def resetBeatDetection : BeatState :=
  { energyHistory := []
    longTermEnergyHistory := []
    lastBeatTime := 0
    lastTransitionTime := 0
    lastHeavyBeatShiftTime := 0
    currentBeatIntensity := 0 }

/-- history.push(x) followed by history.shift() when the capacity is exceeded. -/
def pushWindow (cap : ℕ) (x : ℚ) (h : List ℚ) : List ℚ :=
  let h2 := h ++ [x]
  if cap < h2.length then h2.tail else h2

/-- getRollingAverage: mean of the short window, 0 when empty. -/
def getRollingAverage (h : List ℚ) : ℚ :=
  if h.length = 0 then 0 else h.sum / h.length

/-- getLongTermAverage: mean of the long window, 0 when empty. -/
def getLongTermAverage (h : List ℚ) : ℚ :=
  if h.length = 0 then 0 else h.sum / h.length

/-- getRecentAverage: mean of the last 30 samples of the long window,
0 when fewer than 30 samples are held. -/
def getRecentAverage (h : List ℚ) : ℚ :=
  if h.length < 30 then 0
  else
    let recentSlice := h.drop (h.length - 30)
    recentSlice.sum / recentSlice.length

/-- The pre-spike slice inspected by detectHeavyBeatShift: indices from
max 0 (length - PRE_SILENCE_FRAMES - 1) up to, excluding, length - 1
(the very last frame, the spike itself, is left out). -/
def preSilenceWindow (h : List ℚ) : List ℚ :=
  (h.take (h.length - 1)).drop (h.length - (HEAVY_BEAT_PRE_SILENCE_FRAMES + 1))

/-- Math.min(1, Math.max(0, x)). -/
def clamp01 (x : ℚ) : ℚ := min 1 (max 0 x)

/-- detectHeavyBeatShift. The current kick energy is passed in (the source
recomputes it from the same frequency snapshot); the result carries the
intensity given to subscribers when the shift fires, and the updated state. -/
def detectHeavyBeatShift (now energy : ℚ) (s : BeatState) : Option ℚ × BeatState :=
  let rollingAverage := getRollingAverage s.energyHistory
  if s.energyHistory.length < HEAVY_BEAT_PRE_SILENCE_FRAMES + 5 then (none, s)
  else if now - s.lastHeavyBeatShiftTime < MIN_HEAVY_BEAT_INTERVAL_MS then (none, s)
  else if rollingAverage < 10 then (none, s)
  else if energy ≤ rollingAverage * HEAVY_BEAT_THRESHOLD then (none, s)
  else
    let preSlice := preSilenceWindow s.energyHistory
    if preSlice.length = 0 then (none, s)
    else if rollingAverage * HEAVY_BEAT_LOW_ENERGY_FACTOR ≤ preSlice.sum / preSlice.length
    then (none, s)
    else
      let intensity := clamp01 ((energy / (rollingAverage * HEAVY_BEAT_THRESHOLD) - 1) * 2)
      (some intensity, { s with lastHeavyBeatShiftTime := now })

/-- The transition intensity computed from a long window: ratio of the recent
average to the long-term average, folded through the spike/dip branches.
The ratio-zero dip case models the JavaScript division 1/0 = Infinity,
which clamps to intensity 1. -/
def transitionIntensityOf (h : List ℚ) : ℚ :=
  let longTermAverage := getLongTermAverage h
  let recentAverage := getRecentAverage h
  let energyRatio := recentAverage / longTermAverage
  if TRANSITION_THRESHOLD < energyRatio then
    min 1 ((energyRatio - TRANSITION_THRESHOLD) / TRANSITION_THRESHOLD)
  else if energyRatio < 1 / TRANSITION_THRESHOLD then
    (if energyRatio = 0 then 1
     else min 1 ((1 / energyRatio - TRANSITION_THRESHOLD) / TRANSITION_THRESHOLD))
  else 0

/-- checkForTransition, with the fired intensity surfaced in the result. -/
def checkForTransition (now : ℚ) (s : BeatState) : Option ℚ × BeatState :=
  if s.longTermEnergyHistory.length < TRANSITION_HISTORY_SIZE then (none, s)
  else if now - s.lastTransitionTime < MIN_TRANSITION_INTERVAL_MS then (none, s)
  else if getLongTermAverage s.longTermEnergyHistory < 15 then (none, s)
  else
    let transitionIntensity := transitionIntensityOf s.longTermEnergyHistory
    if 1/5 < transitionIntensity then
      (some transitionIntensity, { s with lastTransitionTime := now })
    else (none, s)

/-- The events a single updateBeatDetection call delivers to subscribers:
for each kind, the intensity passed to every callback of that kind,
or none when the kind did not fire this frame. -/
structure FrameEvents where
  beat : Option ℚ
  transition : Option ℚ
  heavyShift : Option ℚ
  deriving DecidableEq, Repr

/-- updateBeatDetection for one frame: pushes the frame energy into both
windows, runs the transition and heavy-shift checks, then the ordinary
beat check (whose rolling average was read before the push, as in the
source). -/
def updateBeatDetection (now energy : ℚ) (s : BeatState) : FrameEvents × BeatState :=
  let rollingAverage := getRollingAverage s.energyHistory
  let s1 := { s with
    energyHistory := pushWindow HISTORY_SIZE energy s.energyHistory
    longTermEnergyHistory :=
      pushWindow TRANSITION_HISTORY_SIZE energy s.longTermEnergyHistory }
  let tRes := checkForTransition now s1
  let hRes := detectHeavyBeatShift now energy tRes.2
  let s3 := hRes.2
  if (s3.energyHistory.length : ℚ) < (HISTORY_SIZE : ℚ) / 2 then
    (⟨none, tRes.1, hRes.1⟩, s3)
  else if 10 < rollingAverage ∧ rollingAverage * BEAT_THRESHOLD < energy ∧
      MIN_BEAT_INTERVAL_MS < now - s3.lastBeatTime then
    let intensity := clamp01 ((energy / (rollingAverage * BEAT_THRESHOLD) - 1) * 2)
    (⟨some intensity, tRes.1, hRes.1⟩,
      { s3 with lastBeatTime := now, currentBeatIntensity := intensity })
  else
    (⟨none, tRes.1, hRes.1⟩,
      { s3 with currentBeatIntensity := max 0 (s3.currentBeatIntensity - 1/20) })

/-- Run updateBeatDetection over a list of (timestamp, energy) frames,
collecting the per-frame events. -/
def runFrames : List (ℚ × ℚ) → BeatState → List FrameEvents × BeatState
  | [], s => ([], s)
  | f :: rest, s =>
    let r := updateBeatDetection f.1 f.2 s
    let rs := runFrames rest r.2
    (r.1 :: rs.1, rs.2)

end BeatDet

namespace Turn

/-- Turn animation duration in seconds (source constant 0.175). -/
def TURN_DURATION : ℚ := 7/40

/-- Look-ahead distance for the first safety stretch (source constant 100). -/
def TURN_CHECK_DISTANCE : ℚ := 100

/-- Look-ahead distance for the post-turn stretch (source constant 200). -/
def POST_TURN_CHECK_DISTANCE : ℚ := 200

/-- Maximum building width assumed for collision (source constant 20). -/
def MAX_BUILDING_WIDTH : ℚ := 20

/-- Safety margin around buildings (source constant 5). -/
def COLLISION_BUFFER : ℚ := 5

/-- Street-grid cell size imported from city/chunk.ts (source constant 25). -/
def BLOCK_SIZE : ℚ := 25

/-- Turn direction. -/
inductive TurnDirection where
  | left
  | right
  deriving DecidableEq, Repr

/-- Angles are represented in units of pi: the rational q stands for the
angle q*pi radians, so PI/2 is 1/2 and the normalization bounds are 1 and -1.
All headings reachable through the controller are half-integer multiples
of pi, on which this representation is exact. -/
def turnAngleOf : TurnDirection → ℚ
  | TurnDirection.left => 1/2
  | TurnDirection.right => -(1/2)

/-- Math.sin at an angle of q*pi radians, for half-integer q (the only
angles the controller produces). Defined by reducing q modulo 2 and
reading off the quarter-circle values. -/
def qsin (q : ℚ) : ℚ :=
  let r := q - 2 * (⌊q / 2⌋ : ℚ)
  if r = 0 then 0
  else if r = 1/2 then 1
  else if r = 1 then 0
  else if r = 3/2 then -1
  else 0

/-- Math.cos at an angle of q*pi radians, for half-integer q. -/
def qcos (q : ℚ) : ℚ := qsin (q + 1/2)

/-- Math.round: round half toward positive infinity. -/
def jsRound (x : ℚ) : ℤ := ⌊x + 1/2⌋

/-- One pass of the subtracting while-loop of normalizeAngle. -/
def normSub (q : ℚ) : ℚ :=
  if 1 < q then normSub (q - 2) else q
termination_by (⌈(q - 1) / 2⌉).toNat
decreasing_by
  have h1 : (0:ℚ) < (q - 1) / 2 := by linarith
  have h2 : (1:ℤ) ≤ ⌈(q - 1) / 2⌉ := Int.ceil_pos.mpr h1
  have h3 : (q - 2 - 1) / 2 = (q - 1) / 2 - 1 := by ring
  have h4 : ⌈(q - 2 - 1) / 2⌉ = ⌈(q - 1) / 2⌉ - 1 := by
    rw [h3]
    exact_mod_cast Int.ceil_sub_int ((q - 1) / 2) 1
  simp only [h4]
  omega

/-- One pass of the adding while-loop of normalizeAngle. -/
def normAdd (q : ℚ) : ℚ :=
  if q < -1 then normAdd (q + 2) else q
termination_by (⌈(-q - 1) / 2⌉).toNat
decreasing_by
  have h1 : (0:ℚ) < (-q - 1) / 2 := by linarith
  have h2 : (1:ℤ) ≤ ⌈(-q - 1) / 2⌉ := Int.ceil_pos.mpr h1
  have h3 : (-(q + 2) - 1) / 2 = (-q - 1) / 2 - 1 := by ring
  have h4 : ⌈(-(q + 2) - 1) / 2⌉ = ⌈(-q - 1) / 2⌉ - 1 := by
    rw [h3]
    exact_mod_cast Int.ceil_sub_int ((-q - 1) / 2) 1
  simp only [h4]
  omega

/-- normalizeAngle: subtract 2*pi while above pi, then add 2*pi while
below -pi (in pi units: subtract 2 while above 1, add 2 while below -1). -/
def normalizeAngle (q : ℚ) : ℚ := normAdd (normSub q)

/-- World points in the horizontal plane, as (x, z); the constant flight
height y plays no role in turn safety or heading logic. -/
abbrev P2 := ℚ × ℚ

/-- 3d control points of the camera flight path, as (x, y, z). -/
abbrev P3 := ℚ × ℚ × ℚ

/-- State of camera/flightPath.ts that the turn controller interacts with:
the control-point list, the furthest z reached, and the flight angle.
(The Catmull-Rom curve object is derived data used only for sampling and
is not consulted by the turn controller.) -/
structure FPState where
  controlPoints : List P3
  lastZ : ℚ
  flightAngle : ℚ
  deriving DecidableEq, Repr

/-- Distance between consecutive flight-path control points (source 100). -/
def PATH_SEGMENT_LENGTH : ℚ := 100

/-- FlightPath.generateDirectionalPoint: step from a point in the flight
direction and snap both horizontal coordinates to the street grid. -/
def generateDirectionalPoint (flightAngle : ℚ) (fromPoint : P3) (distance : ℚ) : P3 :=
  let nx := fromPoint.1 + qsin flightAngle * distance
  let nz := fromPoint.2.2 + qcos flightAngle * distance
  ((jsRound (nx / BLOCK_SIZE) : ℚ) * BLOCK_SIZE,
    30,
    (jsRound (nz / BLOCK_SIZE) : ℚ) * BLOCK_SIZE)

/-- FlightPath.setFlightDirection: set the heading and append 10 points
from the current path end in the new heading. -/
def setFlightDirection (angle : ℚ) (fp : FPState) : FPState :=
  let fp1 := { fp with flightAngle := angle }
  (List.range 10).foldl
    (fun st _ =>
      let fromPoint := st.controlPoints.getLastD (0, 0, 0)
      let newPoint := generateDirectionalPoint st.flightAngle fromPoint PATH_SEGMENT_LENGTH
      { st with
        controlPoints := st.controlPoints ++ [newPoint]
        lastZ := max st.lastZ newPoint.2.2 })
    fp1

/-- The TurnState record of turnController.ts. -/
structure TurnState where
  isActive : Bool
  progress : ℚ
  direction : TurnDirection
  startAngle : ℚ
  targetAngle : ℚ
  deriving DecidableEq, Repr

/-- The full state owned by a TurnController: its turn state, base flight
angle, subscriber list (opaque callback handles), the flight path it
mutates on turn completion, and the position provider, modelled by the
position it returns (none when no provider is configured). -/
structure TCState where
  flightPath : FPState
  turnState : TurnState
  currentFlightAngle : ℚ
  turnCompleteCallbacks : List ℕ
  positionProvider : Option P2
  deriving DecidableEq, Repr

/-- executeTurn: rejected when already turning, otherwise captures the
start and target headings and activates the turn. -/
def executeTurn (d : TurnDirection) (s : TCState) : Bool × TCState :=
  if s.turnState.isActive then (false, s)
  else
    let targetAngle := s.currentFlightAngle + turnAngleOf d
    (true,
      { s with turnState :=
        { isActive := true
          progress := 0
          direction := d
          startAngle := s.currentFlightAngle
          targetAngle := targetAngle } })

/-- Result of one TurnController.update call: the returned boolean, the
turn-complete notifications delivered (callback handle, direction), and
the state afterwards. -/
structure UpdateResult where
  returning : Bool
  notified : List (ℕ × TurnDirection)
  state : TCState
  deriving DecidableEq, Repr

/-- TurnController.update: advance the animation by dt / TURN_DURATION;
on reaching progress 1, commit the normalized target heading, notify the
turn-complete subscribers, and regenerate the flight path in the new
heading. -/
def update (dt : ℚ) (s : TCState) : UpdateResult :=
  if s.turnState.isActive = false then ⟨false, [], s⟩
  else
    let progress2 := s.turnState.progress + dt / TURN_DURATION
    if 1 ≤ progress2 then
      let committed := normalizeAngle s.turnState.targetAngle
      ⟨false,
        s.turnCompleteCallbacks.map fun c => (c, s.turnState.direction),
        { s with
          turnState := { s.turnState with isActive := false, progress := 1 }
          currentFlightAngle := committed
          flightPath := setFlightDirection committed s.flightPath }⟩
    else
      ⟨true, [], { s with turnState := { s.turnState with progress := progress2 } }⟩

/-- Run a list of update calls, keeping only the final state. -/
def runUpdates (dts : List ℚ) (s : TCState) : TCState :=
  dts.foldl (fun st dt => (update dt st).state) s

/-- isPointNearBuilding: the World Grid Oracle of the repository.
A point is blocked when its axis distances to the nearest building
center (grid of pitch BLOCK_SIZE, offset BLOCK_SIZE/2) are both below
MAX_BUILDING_WIDTH/2 + COLLISION_BUFFER. -/
def isPointNearBuilding (p : P2) : Bool :=
  let buildingCenterX :=
    (jsRound ((p.1 - BLOCK_SIZE / 2) / BLOCK_SIZE) : ℚ) * BLOCK_SIZE + BLOCK_SIZE / 2
  let buildingCenterZ :=
    (jsRound ((p.2 - BLOCK_SIZE / 2) / BLOCK_SIZE) : ℚ) * BLOCK_SIZE + BLOCK_SIZE / 2
  let dx := |p.1 - buildingCenterX|
  let dz := |p.2 - buildingCenterZ|
  let collisionRadius := MAX_BUILDING_WIDTH / 2 + COLLISION_BUFFER
  decide (dx < collisionRadius) && decide (dz < collisionRadius)

/-- checkPathClear, parameterized by the point oracle: sample the ray from
startPos in direction dir every BLOCK_SIZE/2 units up to the given
distance (capping the last sample at the exact distance) and require
every sampled point to be clear. -/
def checkPathClearWith (oracle : P2 → Bool) (startPos : P2) (dir : P2)
    (distance : ℚ) : Bool :=
  let checkInterval := BLOCK_SIZE / 2
  let numChecks := (⌈distance / checkInterval⌉).toNat
  (List.range (numChecks + 1)).all fun i =>
    let checkDistance := min ((i : ℚ) * checkInterval) distance
    !oracle (startPos.1 + dir.1 * checkDistance, startPos.2 + dir.2 * checkDistance)

/-- canTurnSafely, parameterized by the World Grid Oracle so that claims
quantifying over oracle behaviour can be stated; the body is the source
body verbatim, threading the (unmodified) controller state through to
make the absence of side effects explicit. -/
def canTurnSafelyWith (oracle : P2 → Bool) (d : TurnDirection) (s : TCState) :
    Bool × TCState :=
  match s.positionProvider with
  | none => (true, s)
  | some currentPosition =>
    if s.turnState.isActive then (false, s)
    else
      let turnDirection := normalizeAngle (s.currentFlightAngle + turnAngleOf d)
      let turnDirectionVec : P2 := (qsin turnDirection, qcos turnDirection)
      if !checkPathClearWith oracle currentPosition turnDirectionVec
          TURN_CHECK_DISTANCE then (false, s)
      else
        let postTurnStartPos : P2 :=
          (currentPosition.1 + turnDirectionVec.1 * (TURN_CHECK_DISTANCE / 2),
            currentPosition.2 + turnDirectionVec.2 * (TURN_CHECK_DISTANCE / 2))
        if !checkPathClearWith oracle postTurnStartPos turnDirectionVec
            POST_TURN_CHECK_DISTANCE then (false, s)
        else (true, s)

/-- canTurnSafely with the repository's concrete building oracle. -/
def canTurnSafely (d : TurnDirection) (s : TCState) : Bool × TCState :=
  canTurnSafelyWith isPointNearBuilding d s

end Turn

namespace MainLoop

/-- The calls the render loop makes in one frame where the experience has
started, in the source order of the animate function in src/main.ts. -/
inductive FrameStep where
  | statsBegin
  | easeToBaseSpeed
  | cameraControllerUpdate
  | bulletAvatarUpdate
  | beatDetectionUpdate
  | beatEffectsUpdate
  | buildingPulseUpdate
  | motionBlurUpdate
  | chunkManagerUpdate
  | renderWithMotionBlur
  | statsEnd
  deriving DecidableEq, Repr

open FrameStep in
/-- The per-frame call sequence of animate (started branch included). -/
def animateSchedule : List FrameStep :=
  [statsBegin, easeToBaseSpeed, cameraControllerUpdate, bulletAvatarUpdate,
    beatDetectionUpdate, beatEffectsUpdate, buildingPulseUpdate,
    motionBlurUpdate, chunkManagerUpdate, renderWithMotionBlur, statsEnd]

/-- Position of a step in the frame schedule. -/
def stepIndex (s : FrameStep) : ℕ := animateSchedule.indexOf s

end MainLoop

namespace FPath

noncomputable section
open scoped Classical

/-- World-space control points (x, y, z), with exact real coordinates. -/
abbrev Point := ℝ × ℝ × ℝ

/-- THREE.Vector3.distanceTo: Euclidean distance. -/
def distanceTo (a b : Point) : ℝ :=
  Real.sqrt ((b.1 - a.1)^2 + (b.2.1 - a.2.1)^2 + (b.2.2 - a.2.2)^2)

/-- The per-segment lengths computed by updateDistances. -/
def segLengths : List Point → List ℝ
  | a :: b :: rest => distanceTo a b :: segLengths (b :: rest)
  | _ => []

/-- Prefix sums starting from c. -/
def cumAux (c : ℝ) : List ℝ → List ℝ
  | [] => [c]
  | l :: ls => c :: cumAux (c + l) ls

/-- The cumulative-distance table of updateDistances: entry i is the
distance along the path at which control point i sits (entry 0 is 0). -/
def cumulativeDistances (cps : List Point) : List ℝ :=
  cumAux 0 (segLengths cps)

/-- The total path length (last cumulative distance, 0 for a trivial path). -/
def totalLength (cps : List Point) : ℝ :=
  (cumulativeDistances cps).getLastD 0

/-- Index of the first entry of the list that lies strictly above d. -/
def segIdxAux (d : ℝ) : List ℝ → Option ℕ
  | [] => none
  | c :: rest => if d < c then some 0 else (segIdxAux d rest).map (· + 1)

/-- The segment-search loop of getPositionAtDistance: the first index i of
the cumulative table (starting from 1) with distance < cum i yields
segment i - 1; when no such index exists the loop leaves the index at 0. -/
def segIdx (d : ℝ) (cum : List ℝ) : ℕ :=
  (segIdxAux d cum.tail).getD 0

/-- THREE.Vector3.lerpVectors. -/
def lerp (p1 p2 : Point) (t : ℝ) : Point :=
  (p1.1 + (p2.1 - p1.1) * t,
    p1.2.1 + (p2.2.1 - p1.2.1) * t,
    p1.2.2 + (p2.2.2 - p1.2.2) * t)

/-- FlightPath.getPositionAtDistance of the straight-segment flight path:
clamp to the endpoints and otherwise interpolate linearly inside the
segment found by the search loop. The empty-path default (0,0,0) stands
for the out-of-contract access controlPoints[0] of an empty array. -/
def getPositionAtDistance (cps : List Point) (d : ℝ) : Point :=
  if d ≤ 0 then cps.headD (0, 0, 0)
  else if totalLength cps ≤ d then cps.getLastD (0, 0, 0)
  else
    let cum := cumulativeDistances cps
    let j := segIdx d cum
    let segStart := cum.getD j 0
    let segLen := (segLengths cps).getD j 0
    let t := (d - segStart) / segLen
    lerp (cps.getD j (0, 0, 0)) (cps.getD (j + 1) (0, 0, 0)) t

/-- The effective distance parameter getPositionAtDistance answers for:
the query clamped into [0, totalLength]. -/
def clampDist (cps : List Point) (d : ℝ) : ℝ :=
  if d ≤ 0 then 0
  else if totalLength cps ≤ d then totalLength cps
  else d

end

end FPath

namespace BeatDet

/-- The last n elements of a list (all of it when it is shorter). -/
def takeLast (n : ℕ) (l : List ℚ) : List ℚ := l.drop (l.length - n)

/-- A frame in which no event fired. -/
def noEvents : FrameEvents := ⟨none, none, none⟩

/-- The classifier state after k frames of constant energy c with no event
fired: both windows filled (and the short one saturated at capacity). -/
def constState (c : ℚ) (k : ℕ) : BeatState :=
  { energyHistory := List.replicate (min k HISTORY_SIZE) c
    longTermEnergyHistory := List.replicate k c
    lastBeatTime := 0
    lastTransitionTime := 0
    lastHeavyBeatShiftTime := 0
    currentBeatIntensity := 0 }

/-- All conditions of the ordinary-beat check except its debounce timer:
post-push window at least half full, pre-push rolling average above the
silence floor, energy above threshold times the pre-push average. -/
def beatQualifies (s : BeatState) (e : ℚ) : Prop :=
  (HISTORY_SIZE : ℚ) / 2 ≤ ((pushWindow HISTORY_SIZE e s.energyHistory).length : ℚ) ∧
  10 < getRollingAverage s.energyHistory ∧
  getRollingAverage s.energyHistory * BEAT_THRESHOLD < e

/-- All conditions of the heavy-shift check except its debounce timer,
stated on the post-push short window (the window as the check sees it,
with the current frame as its last element). -/
def heavyQualifies (s : BeatState) (e : ℚ) : Prop :=
  let h := pushWindow HISTORY_SIZE e s.energyHistory
  HEAVY_BEAT_PRE_SILENCE_FRAMES + 5 ≤ h.length ∧
  10 ≤ getRollingAverage h ∧
  getRollingAverage h * HEAVY_BEAT_THRESHOLD < e ∧
  (preSilenceWindow h).sum / ((preSilenceWindow h).length : ℚ) <
    getRollingAverage h * HEAVY_BEAT_LOW_ENERGY_FACTOR

/-- All conditions of the transition check except its debounce timer,
stated on the post-push long window. -/
def transitionQualifies (s : BeatState) (e : ℚ) : Prop :=
  let h := pushWindow TRANSITION_HISTORY_SIZE e s.longTermEnergyHistory
  TRANSITION_HISTORY_SIZE ≤ h.length ∧
  15 ≤ getLongTermAverage h ∧
  1/5 < transitionIntensityOf h

/-- The end-to-end scenario of the claim: 50 frames of energy 5, one of 60,
then frames of energy 8, at a steady 17 ms cadence placed after the
initial debounce windows have long expired. -/
def scenSilenceSpike : List (ℚ × ℚ) :=
  ((List.range 50).map fun i : ℕ => ((3000 + 17 * (i : ℚ)), (5 : ℚ))) ++
    [(3850, 60), (3867, 8), (3884, 8), (3901, 8)]

/-- A loud-enough variant of the scenario: 50 frames of energy 11, one of
500, then frames of energy 8, same cadence. -/
def scenLoudSpike : List (ℚ × ℚ) :=
  ((List.range 50).map fun i : ℕ => ((3000 + 17 * (i : ℚ)), (11 : ℚ))) ++
    [(3850, 500), (3867, 8), (3884, 8), (3901, 8)]

/-- Debounce scenario start state for the ordinary beat: a saturated short
window of steady energy 20. -/
def s0B : BeatState := ⟨List.replicate 43 (20:ℚ), [], 0, 0, 0, 0⟩

/-- Debounce scenario start state for the heavy shift: a loud stretch
followed by twelve near-silent frames. -/
def s0H : BeatState :=
  ⟨List.replicate 31 (30:ℚ) ++ List.replicate 12 (4:ℚ), [], 0, 0, 0, 0⟩

/-- Debounce scenario start state for the transition: a saturated long
window of steady energy 20. -/
def s0T : BeatState := ⟨[], List.replicate 120 (20:ℚ), 0, 0, 0, 0⟩

/-- A state sharing s0B's short window and beat timer but with the other
two debounce timers pushed far into the future. -/
def s0Bvar : BeatState := ⟨List.replicate 43 (20:ℚ), [], 0, 900000, 900000, 0⟩

/-- A state sharing s0H's windows and heavy-shift timer but with the
beat and transition timers pushed far into the future. -/
def s0Hvar : BeatState :=
  ⟨List.replicate 31 (30:ℚ) ++ List.replicate 12 (4:ℚ), [], 900000, 900000, 0, 0⟩

/-- A state sharing s0T's windows and transition timer but with the
beat and heavy-shift timers pushed far into the future. -/
def s0Tvar : BeatState := ⟨[], List.replicate 120 (20:ℚ), 900000, 0, 900000, 0⟩

end BeatDet

namespace MainLoop

/-- C4 (counterexample): in the driving loop of src/main.ts the
beat-classifier update does NOT run before the camera controller update;
the camera controller update is called earlier in the same frame, so the
claimed producer-before-consumer ordering fails on the code. -/
theorem c4_counterexample :
    ¬ stepIndex FrameStep.beatDetectionUpdate <
      stepIndex FrameStep.cameraControllerUpdate := by
  decide

/-- C4 (amended): in every frame of the driving loop the camera controller
update runs before the beat-classifier update, so the speed/turn
reactions fired synchronously by the classifier are consumed by the
NEXT frame's camera update; the classifier update does precede the
world-chunk-manager update and the render call of the same frame. -/
theorem c4_amended :
    stepIndex FrameStep.cameraControllerUpdate <
      stepIndex FrameStep.beatDetectionUpdate ∧
    stepIndex FrameStep.beatDetectionUpdate <
      stepIndex FrameStep.chunkManagerUpdate ∧
    stepIndex FrameStep.chunkManagerUpdate <
      stepIndex FrameStep.renderWithMotionBlur := by
  decide

end MainLoop

namespace Turn

/-- canTurnSafely never modifies the controller state, whatever the oracle. -/
lemma canTurnSafelyWith_snd (oracle : P2 → Bool) (d : TurnDirection) (s : TCState) :
    (canTurnSafelyWith oracle d s).2 = s := by
  unfold canTurnSafelyWith
  cases s.positionProvider
  · rfl
  · simp only []
    split_ifs <;> rfl

/-- With no position provider, canTurnSafely answers true at once. -/
lemma canTurnSafely_none (d : TurnDirection) (s : TCState)
    (h : s.positionProvider = none) : (canTurnSafely d s).1 = true := by
  unfold canTurnSafely canTurnSafelyWith
  rw [h]

/-- With a provider configured, an active turn makes canTurnSafely false. -/
lemma canTurnSafely_active (d : TurnDirection) (s : TCState) (p : P2)
    (hp : s.positionProvider = some p) (ha : s.turnState.isActive = true) :
    (canTurnSafely d s).1 = false := by
  unfold canTurnSafely canTurnSafelyWith
  rw [hp]
  simp [ha]

/-- The subtracting loop of normalizeAngle ends at or below 1 (pi units). -/
lemma normSub_le_one (q : ℚ) : normSub q ≤ 1 := by
  induction q using normSub.induct with
  | case1 q hlt ih => rw [normSub]; simp only [if_pos hlt]; exact ih
  | case2 q hnlt => rw [normSub]; simp only [if_neg hnlt]; linarith [not_lt.mp hnlt]

/-- The adding loop of normalizeAngle ends at or above -1 (pi units). -/
lemma normAdd_neg_one_le (q : ℚ) : -1 ≤ normAdd q := by
  induction q using normAdd.induct with
  | case1 q hlt ih => rw [normAdd]; simp only [if_pos hlt]; exact ih
  | case2 q hnlt => rw [normAdd]; simp only [if_neg hnlt]; linarith [not_lt.mp hnlt]

/-- The adding loop cannot push a value at or below 1 above 1. -/
lemma normAdd_le_one (q : ℚ) (hq : q ≤ 1) : normAdd q ≤ 1 := by
  induction q using normAdd.induct with
  | case1 q hlt ih =>
    rw [normAdd]; simp only [if_pos hlt]
    exact ih (by linarith)
  | case2 q hnlt => rw [normAdd]; simp only [if_neg hnlt]; exact hq

/-- normalizeAngle lands in [-pi, pi]: in pi units, in [-1, 1]. Both ends
are closed: an input of exactly -1 (that is, -pi) is returned unchanged. -/
lemma normalizeAngle_range (q : ℚ) :
    -1 ≤ normalizeAngle q ∧ normalizeAngle q ≤ 1 :=
  ⟨normAdd_neg_one_le _, normAdd_le_one _ (normSub_le_one q)⟩

end Turn

namespace Turn

/-- normSub leaves values already at or below 1 unchanged. -/
lemma normSub_of_le (q : ℚ) (h : q ≤ 1) : normSub q = q := by
  rw [normSub]; simp [not_lt.mpr h]

/-- normAdd leaves values already at or above -1 unchanged. -/
lemma normAdd_of_ge (q : ℚ) (h : -1 ≤ q) : normAdd q = q := by
  rw [normAdd]; simp [not_lt.mpr h]

/-- normalizeAngle is the identity on [-pi, pi] (in pi units, [-1, 1]);
in particular it does not move -pi to pi. -/
lemma normalizeAngle_of_mem (q : ℚ) (h1 : -1 ≤ q) (h2 : q ≤ 1) :
    normalizeAngle q = q := by
  rw [normalizeAngle, normSub_of_le q h2, normAdd_of_ge q h1]

/-- One update step preserves the turn invariant: either the turn is still
active with the captured target angle A, or it has committed and the base
heading is exactly normalizeAngle A. -/
lemma update_inv (A : ℚ) (dt : ℚ) (s : TCState)
    (hs : (s.turnState.isActive = true ∧ s.turnState.targetAngle = A) ∨
      (s.turnState.isActive = false ∧ s.currentFlightAngle = normalizeAngle A)) :
    ((update dt s).state.turnState.isActive = true ∧
        (update dt s).state.turnState.targetAngle = A) ∨
      ((update dt s).state.turnState.isActive = false ∧
        (update dt s).state.currentFlightAngle = normalizeAngle A) := by
  rcases hs with ⟨ha, ht⟩ | ⟨ha, hq⟩
  · unfold update
    rw [ha]
    simp only [Bool.true_eq_false, if_false]
    split_ifs with h1
    · exact Or.inr ⟨rfl, by simp [ht]⟩
    · exact Or.inl ⟨ha, ht⟩
  · unfold update
    rw [ha]
    simp only [if_pos rfl]
    exact Or.inr ⟨ha, hq⟩

/-- The turn invariant carries over any sequence of update calls. -/
lemma runUpdates_inv (A : ℚ) (dts : List ℚ) (s : TCState)
    (hs : (s.turnState.isActive = true ∧ s.turnState.targetAngle = A) ∨
      (s.turnState.isActive = false ∧ s.currentFlightAngle = normalizeAngle A)) :
    ((runUpdates dts s).turnState.isActive = true ∧
        (runUpdates dts s).turnState.targetAngle = A) ∨
      ((runUpdates dts s).turnState.isActive = false ∧
        (runUpdates dts s).currentFlightAngle = normalizeAngle A) := by
  induction dts generalizing s with
  | nil => exact hs
  | cons dt rest ih => exact ih _ (update_inv A dt s hs)

/-- C5 (counterexample): starting from heading 0 and completing two right
turns, the committed base heading is exactly -pi (-1 in pi units), which
lies outside the claimed normalization interval (-pi, pi]. The code's
normalizeAngle normalizes into the closed interval [-pi, pi] and returns
-pi unchanged. -/
theorem c5_counterexample :
    (runUpdates [7/40]
        (executeTurn TurnDirection.right
          (runUpdates [7/40]
            (executeTurn TurnDirection.right
              ⟨⟨[(0, 30, 0)], 0, 0⟩, ⟨false, 0, TurnDirection.right, 0, 0⟩,
                0, [], none⟩).2)).2).currentFlightAngle = -1 ∧
    ¬(-1 < (runUpdates [7/40]
        (executeTurn TurnDirection.right
          (runUpdates [7/40]
            (executeTurn TurnDirection.right
              ⟨⟨[(0, 30, 0)], 0, 0⟩, ⟨false, 0, TurnDirection.right, 0, 0⟩,
                0, [], none⟩).2)).2).currentFlightAngle) := by
  have h : (runUpdates [7/40]
      (executeTurn TurnDirection.right
        (runUpdates [7/40]
          (executeTurn TurnDirection.right
            ⟨⟨[(0, 30, 0)], 0, 0⟩, ⟨false, 0, TurnDirection.right, 0, 0⟩,
              0, [], none⟩).2)).2).currentFlightAngle = -1 := by
    norm_num [runUpdates, executeTurn, update, turnAngleOf, TURN_DURATION,
      normalizeAngle_of_mem]
  exact ⟨h, by rw [h]; norm_num⟩

/-- C5 (amended): for every turn started by executeTurn from an idle state
at base heading H, once the controller has finished updating (the turn
state is inactive again), the committed base heading is exactly
normalizeAngle (H + pi/2) for a left turn and normalizeAngle (H - pi/2)
for a right turn, normalized into the closed interval [-pi, pi] — never
any intermediate value. (Angles are in pi units: 1/2 stands for pi/2.) -/
theorem c5_amended (s : TCState) (d : TurnDirection) (dts : List ℚ)
    (hidle : s.turnState.isActive = false)
    (hdone : (runUpdates dts (executeTurn d s).2).turnState.isActive = false) :
    (runUpdates dts (executeTurn d s).2).currentFlightAngle
        = normalizeAngle (s.currentFlightAngle + turnAngleOf d) ∧
      -1 ≤ (runUpdates dts (executeTurn d s).2).currentFlightAngle ∧
      (runUpdates dts (executeTurn d s).2).currentFlightAngle ≤ 1 := by
  have hstart : ((executeTurn d s).2.turnState.isActive = true ∧
      (executeTurn d s).2.turnState.targetAngle
        = s.currentFlightAngle + turnAngleOf d) ∨
      ((executeTurn d s).2.turnState.isActive = false ∧
        (executeTurn d s).2.currentFlightAngle
          = normalizeAngle (s.currentFlightAngle + turnAngleOf d)) := by
    left
    unfold executeTurn
    rw [hidle]
    simp
  have h2 := runUpdates_inv _ dts _ hstart
  rcases h2 with ⟨ha, _⟩ | ⟨_, hq⟩
  · rw [hdone] at ha
    exact absurd ha (by simp)
  · refine ⟨hq, ?_, ?_⟩
    · rw [hq]; exact (normalizeAngle_range _).1
    · rw [hq]; exact (normalizeAngle_range _).2

/-- C5 (witness): a left turn from heading 0, driven to completion by a
single 175 ms update, commits exactly pi/2 (1/2 in pi units). -/
theorem c5_amended_witness :
    (runUpdates [7/40]
        (executeTurn TurnDirection.left
          ⟨⟨[(0, 30, 0)], 0, 0⟩, ⟨false, 0, TurnDirection.left, 0, 0⟩,
            0, [], none⟩).2).currentFlightAngle
        = normalizeAngle (0 + turnAngleOf TurnDirection.left) ∧
      -1 ≤ (runUpdates [7/40]
        (executeTurn TurnDirection.left
          ⟨⟨[(0, 30, 0)], 0, 0⟩, ⟨false, 0, TurnDirection.left, 0, 0⟩,
            0, [], none⟩).2).currentFlightAngle ∧
      (runUpdates [7/40]
        (executeTurn TurnDirection.left
          ⟨⟨[(0, 30, 0)], 0, 0⟩, ⟨false, 0, TurnDirection.left, 0, 0⟩,
            0, [], none⟩).2).currentFlightAngle ≤ 1 :=
  c5_amended
    ⟨⟨[(0, 30, 0)], 0, 0⟩, ⟨false, 0, TurnDirection.left, 0, 0⟩, 0, [], none⟩
    TurnDirection.left [7/40] rfl
    (by norm_num [runUpdates, executeTurn, update, TURN_DURATION])

/-- C3 (counterexample): with no position provider configured and no turn
active, canTurnSafely returns true, not false as claimed: the
no-provider check runs first and fails open. -/
theorem c3_counterexample :
    (canTurnSafely TurnDirection.left
        ⟨⟨[(0, 30, 0)], 0, 0⟩, ⟨false, 0, TurnDirection.left, 0, 0⟩,
          0, [], none⟩).1 = true := by
  rfl

/-- C3 (amended): canTurnSafely returns true unconditionally when no
position provider is configured (fail-open, even during an active turn);
when a provider is configured it returns false immediately if a turn is
already active. -/
theorem c3_amended (d : TurnDirection) (s : TCState) :
    (s.positionProvider = none → (canTurnSafely d s).1 = true) ∧
    (∀ p : P2, s.positionProvider = some p → s.turnState.isActive = true →
      (canTurnSafely d s).1 = false) :=
  ⟨fun h => canTurnSafely_none d s h,
    fun p hp ha => canTurnSafely_active d s p hp ha⟩

/-- C3 (witness): a controller with no provider but an active turn still
answers true; a controller with a provider and an active turn answers
false. -/
theorem c3_amended_witness :
    (canTurnSafely TurnDirection.left
        ⟨⟨[(0, 30, 0)], 0, 0⟩, ⟨true, 0, TurnDirection.left, 0, 0⟩,
          0, [], none⟩).1 = true ∧
    (canTurnSafely TurnDirection.left
        ⟨⟨[(0, 30, 0)], 0, 0⟩, ⟨true, 0, TurnDirection.left, 0, 0⟩,
          0, [], some (0, 0)⟩).1 = false :=
  ⟨(c3_amended TurnDirection.left
      ⟨⟨[(0, 30, 0)], 0, 0⟩, ⟨true, 0, TurnDirection.left, 0, 0⟩,
        0, [], none⟩).1 rfl,
    (c3_amended TurnDirection.left
      ⟨⟨[(0, 30, 0)], 0, 0⟩, ⟨true, 0, TurnDirection.left, 0, 0⟩,
        0, [], some (0, 0)⟩).2 (0, 0) rfl rfl⟩

/-- C10: canTurnSafely has no side effects: for every direction and
controller state it leaves the whole state — in particular the turn
state, the base flight angle, the turn-complete subscriber list and the
flight path's control points — unchanged. -/
theorem c10_canTurnSafely_pure (d : TurnDirection) (s : TCState) :
    (canTurnSafely d s).2 = s ∧
    (canTurnSafely d s).2.turnState = s.turnState ∧
    (canTurnSafely d s).2.currentFlightAngle = s.currentFlightAngle ∧
    (canTurnSafely d s).2.turnCompleteCallbacks = s.turnCompleteCallbacks ∧
    (canTurnSafely d s).2.flightPath.controlPoints
      = s.flightPath.controlPoints := by
  have h : (canTurnSafely d s).2 = s := canTurnSafelyWith_snd _ d s
  exact ⟨h, by rw [h], by rw [h], by rw [h], by rw [h]⟩

end Turn

namespace Turn

/-- The first-stretch sample count: ceil(100 / 12.5) = 8. -/
lemma numChecks_100 : ((⌈(TURN_CHECK_DISTANCE / (BLOCK_SIZE / 2) : ℚ)⌉).toNat) = 8 := by
  have h : (TURN_CHECK_DISTANCE / (BLOCK_SIZE / 2) : ℚ) = 8 := by
    norm_num [TURN_CHECK_DISTANCE, BLOCK_SIZE]
  rw [h]
  rfl

/-- If the oracle is clear along the whole stretch, the sampled check
passes: every sample lies at a distance in [0, dist]. -/
lemma checkPathClear_of_clear (oracle : P2 → Bool) (p v : P2) (dist : ℚ)
    (hd : 0 ≤ dist)
    (hclear : ∀ t : ℚ, 0 ≤ t → t ≤ dist →
      oracle (p.1 + v.1 * t, p.2 + v.2 * t) = false) :
    checkPathClearWith oracle p v dist = true := by
  unfold checkPathClearWith
  rw [List.all_eq_true]
  intro i hi
  have h0 : (0:ℚ) ≤ min ((i:ℚ) * (BLOCK_SIZE / 2)) dist :=
    le_min (mul_nonneg (by positivity) (by norm_num [BLOCK_SIZE])) hd
  have h1 : min ((i:ℚ) * (BLOCK_SIZE / 2)) dist ≤ dist := min_le_right _ _
  simp only [Bool.not_eq_eq_eq_not, Bool.not_true]
  exact hclear _ h0 h1

/-- If one of the nine sampled points of the 100-unit stretch is blocked,
the sampled check fails. -/
lemma checkPathClear_of_blocked (oracle : P2 → Bool) (p v : P2) (i : ℕ)
    (hi : i ≤ 8)
    (hb : oracle (p.1 + v.1 * min ((i:ℚ) * (BLOCK_SIZE / 2)) TURN_CHECK_DISTANCE,
      p.2 + v.2 * min ((i:ℚ) * (BLOCK_SIZE / 2)) TURN_CHECK_DISTANCE) = true) :
    checkPathClearWith oracle p v TURN_CHECK_DISTANCE = false := by
  unfold checkPathClearWith
  rw [← Bool.not_eq_true, List.all_eq_true]
  intro hall
  have hmem : i ∈ List.range
      (((⌈(TURN_CHECK_DISTANCE / (BLOCK_SIZE / 2) : ℚ)⌉).toNat) + 1) := by
    rw [numChecks_100]
    exact List.mem_range.mpr (by omega)
  have hthis := hall i hmem
  simp only [Bool.not_eq_eq_eq_not, Bool.not_true] at hthis
  rw [hb] at hthis
  simp at hthis

/-- The repository's concrete oracle blocks every point of the plane: the
nearest building center is never farther than BLOCK_SIZE/2 = 12.5 on
either axis, which is below the collision radius 15 (= 20/2 + 5).
Consequently the concrete canTurnSafely can never report a clear path
when a position provider is configured and no turn is active. -/
lemma isPointNearBuilding_true (p : P2) : isPointNearBuilding p = true := by
  unfold isPointNearBuilding jsRound
  simp only [Bool.and_eq_true, decide_eq_true_eq]
  norm_num [BLOCK_SIZE, MAX_BUILDING_WIDTH, COLLISION_BUFFER]
  constructor
  · have h1 : ((⌊(p.1 - 25/2)/25 + 1/2⌋ : ℤ) : ℚ) ≤ (p.1 - 25/2)/25 + 1/2 :=
      Int.floor_le _
    have h2 : (p.1 - 25/2)/25 + 1/2 < (⌊(p.1 - 25/2)/25 + 1/2⌋ : ℤ) + 1 :=
      Int.lt_floor_add_one _
    rw [abs_lt]
    constructor <;> linarith
  · have h1 : ((⌊(p.2 - 25/2)/25 + 1/2⌋ : ℤ) : ℚ) ≤ (p.2 - 25/2)/25 + 1/2 :=
      Int.floor_le _
    have h2 : (p.2 - 25/2)/25 + 1/2 < (⌊(p.2 - 25/2)/25 + 1/2⌋ : ℤ) + 1 :=
      Int.lt_floor_add_one _
    rw [abs_lt]
    constructor <;> linarith

/-- C2 (counterexample): the safety check only samples the corridor every
BLOCK_SIZE/2 = 12.5 units, so a World Grid Oracle blocking a single
point strictly between samples — here the point (6, 0), which lies on
the turn corridor at distance 6, within the first 100 units — does not
make canTurnSafely return false: the check still answers true. -/
theorem c2_counterexample :
    ((6:ℚ), (0:ℚ)) =
      ((0:ℚ) + qsin (normalizeAngle ((0:ℚ) + turnAngleOf TurnDirection.left)) * 6,
        (0:ℚ) + qcos (normalizeAngle ((0:ℚ) + turnAngleOf TurnDirection.left)) * 6) ∧
    (canTurnSafelyWith
        (fun p : P2 => if p = ((6:ℚ), (0:ℚ)) then true else false)
        TurnDirection.left
        ⟨⟨[(0, 30, 0)], 0, 0⟩, ⟨false, 0, TurnDirection.left, 0, 0⟩,
          0, [], some ((0:ℚ), (0:ℚ))⟩).1 = true := by
  constructor
  · norm_num [turnAngleOf, normalizeAngle_of_mem, qsin, qcos]
  · norm_num [canTurnSafelyWith, checkPathClearWith, turnAngleOf,
      normalizeAngle_of_mem, qsin, qcos, BLOCK_SIZE, TURN_CHECK_DISTANCE,
      POST_TURN_CHECK_DISTANCE, List.range_succ, Prod.ext_iff]
    have hA : ¬((∃ x : ℕ, x < 8 ∧ ((x : ℚ) * (25 / 2)) ⊓ 100 = 6) ∨
        ((Int.toNat 8 : ℚ)) * (25 / 2) ⊓ 100 = 6) := by
      rintro (⟨x, hx, he⟩ | he)
      · interval_cases x <;> norm_num [min_def] at he
      · rw [show Int.toNat 8 = 8 from rfl] at he
        norm_num [min_def] at he
    have hB : ¬((∃ x : ℕ, x < 16 ∧ 50 + ((x : ℚ) * (25 / 2)) ⊓ 200 = 6) ∨
        50 + ((Int.toNat 16 : ℚ)) * (25 / 2) ⊓ 200 = 6) := by
      rintro (⟨x, hx, he⟩ | he)
      · interval_cases x <;> norm_num [min_def] at he
      · rw [show Int.toNat 16 = 16 from rfl] at he
        norm_num [min_def] at he
    rw [if_neg hA, if_neg hB]

/-- C2 (amended): with a position provider configured and no turn active,
if the World Grid Oracle reports clear at every point of the 300-unit
corridor from the current position in the candidate direction, then
canTurnSafely returns true; and if the oracle blocks one of the points
the check actually samples in the first 100-unit stretch (distances
min(i * BLOCK_SIZE/2, 100) for i = 0..8), it returns false. A blocked
point strictly between samples may go undetected. -/
theorem c2_amended (oracle : P2 → Bool) (d : TurnDirection) (s : TCState) (pos : P2)
    (hp : s.positionProvider = some pos) (ha : s.turnState.isActive = false) :
    ((∀ t : ℚ, 0 ≤ t → t ≤ 300 →
        oracle (pos.1 + qsin (normalizeAngle (s.currentFlightAngle + turnAngleOf d)) * t,
          pos.2 + qcos (normalizeAngle (s.currentFlightAngle + turnAngleOf d)) * t)
          = false) →
      (canTurnSafelyWith oracle d s).1 = true) ∧
    (∀ i : ℕ, i ≤ 8 →
      oracle (pos.1 + qsin (normalizeAngle (s.currentFlightAngle + turnAngleOf d)) *
            min ((i:ℚ) * (BLOCK_SIZE / 2)) TURN_CHECK_DISTANCE,
        pos.2 + qcos (normalizeAngle (s.currentFlightAngle + turnAngleOf d)) *
            min ((i:ℚ) * (BLOCK_SIZE / 2)) TURN_CHECK_DISTANCE) = true →
      (canTurnSafelyWith oracle d s).1 = false) := by
  constructor
  · intro hclear
    have h1 : checkPathClearWith oracle pos
        (qsin (normalizeAngle (s.currentFlightAngle + turnAngleOf d)),
          qcos (normalizeAngle (s.currentFlightAngle + turnAngleOf d)))
        TURN_CHECK_DISTANCE = true := by
      apply checkPathClear_of_clear
      · norm_num [TURN_CHECK_DISTANCE]
      · intro t h0 ht
        exact hclear t h0 (le_trans ht (by norm_num [TURN_CHECK_DISTANCE]))
    have h2 : checkPathClearWith oracle
        (pos.1 + qsin (normalizeAngle (s.currentFlightAngle + turnAngleOf d)) *
            (TURN_CHECK_DISTANCE / 2),
          pos.2 + qcos (normalizeAngle (s.currentFlightAngle + turnAngleOf d)) *
            (TURN_CHECK_DISTANCE / 2))
        (qsin (normalizeAngle (s.currentFlightAngle + turnAngleOf d)),
          qcos (normalizeAngle (s.currentFlightAngle + turnAngleOf d)))
        POST_TURN_CHECK_DISTANCE = true := by
      apply checkPathClear_of_clear
      · norm_num [POST_TURN_CHECK_DISTANCE]
      · intro t h0 ht
        have ht2 : t ≤ 200 := by
          calc t ≤ POST_TURN_CHECK_DISTANCE := ht
          _ = 200 := by norm_num [POST_TURN_CHECK_DISTANCE]
        have e1 : pos.1 + qsin (normalizeAngle (s.currentFlightAngle + turnAngleOf d)) *
            (TURN_CHECK_DISTANCE / 2) +
            qsin (normalizeAngle (s.currentFlightAngle + turnAngleOf d)) * t =
            pos.1 + qsin (normalizeAngle (s.currentFlightAngle + turnAngleOf d))
              * (50 + t) := by
          norm_num [TURN_CHECK_DISTANCE]; ring
        have e2 : pos.2 + qcos (normalizeAngle (s.currentFlightAngle + turnAngleOf d)) *
            (TURN_CHECK_DISTANCE / 2) +
            qcos (normalizeAngle (s.currentFlightAngle + turnAngleOf d)) * t =
            pos.2 + qcos (normalizeAngle (s.currentFlightAngle + turnAngleOf d))
              * (50 + t) := by
          norm_num [TURN_CHECK_DISTANCE]; ring
        rw [e1, e2]
        exact hclear (50 + t) (by linarith) (by linarith)
    unfold canTurnSafelyWith
    rw [hp]
    simp [ha, h1, h2]
  · intro i hi hb
    have h1 : checkPathClearWith oracle pos
        (qsin (normalizeAngle (s.currentFlightAngle + turnAngleOf d)),
          qcos (normalizeAngle (s.currentFlightAngle + turnAngleOf d)))
        TURN_CHECK_DISTANCE = false :=
      checkPathClear_of_blocked oracle pos _ i hi hb
    unfold canTurnSafelyWith
    rw [hp]
    simp [ha, h1]

/-- C2 (witness): with the all-clear oracle the check answers true; with
the all-blocked oracle, sample 0 is blocked and the check answers false. -/
theorem c2_amended_witness :
    (canTurnSafelyWith (fun _ : P2 => false) TurnDirection.left
        ⟨⟨[(0, 30, 0)], 0, 0⟩, ⟨false, 0, TurnDirection.left, 0, 0⟩,
          0, [], some ((0:ℚ), (0:ℚ))⟩).1 = true ∧
    (canTurnSafelyWith (fun _ : P2 => true) TurnDirection.left
        ⟨⟨[(0, 30, 0)], 0, 0⟩, ⟨false, 0, TurnDirection.left, 0, 0⟩,
          0, [], some ((0:ℚ), (0:ℚ))⟩).1 = false :=
  ⟨(c2_amended (fun _ => false) TurnDirection.left
      ⟨⟨[(0, 30, 0)], 0, 0⟩, ⟨false, 0, TurnDirection.left, 0, 0⟩,
        0, [], some ((0:ℚ), (0:ℚ))⟩ ((0:ℚ), (0:ℚ)) rfl rfl).1
      (fun t h1 h2 => rfl),
    (c2_amended (fun _ => true) TurnDirection.left
      ⟨⟨[(0, 30, 0)], 0, 0⟩, ⟨false, 0, TurnDirection.left, 0, 0⟩,
        0, [], some ((0:ℚ), (0:ℚ))⟩ ((0:ℚ), (0:ℚ)) rfl rfl).2 0
      (by norm_num) rfl⟩

end Turn

namespace BeatDet

lemma preSilenceWindow_length (h : List ℚ) (hl : 13 ≤ h.length) :
    (preSilenceWindow h).length = 12 := by
  simp [preSilenceWindow, HEAVY_BEAT_PRE_SILENCE_FRAMES]
  omega

lemma checkForTransition_snd (now : ℚ) (s : BeatState) :
    (checkForTransition now s).2.energyHistory = s.energyHistory ∧
    (checkForTransition now s).2.longTermEnergyHistory = s.longTermEnergyHistory ∧
    (checkForTransition now s).2.lastBeatTime = s.lastBeatTime ∧
    (checkForTransition now s).2.lastHeavyBeatShiftTime = s.lastHeavyBeatShiftTime ∧
    (checkForTransition now s).2.currentBeatIntensity = s.currentBeatIntensity := by
  unfold checkForTransition
  dsimp only
  split_ifs <;> exact ⟨rfl, rfl, rfl, rfl, rfl⟩

lemma detectHeavyBeatShift_snd (now e : ℚ) (s : BeatState) :
    (detectHeavyBeatShift now e s).2.energyHistory = s.energyHistory ∧
    (detectHeavyBeatShift now e s).2.longTermEnergyHistory = s.longTermEnergyHistory ∧
    (detectHeavyBeatShift now e s).2.lastBeatTime = s.lastBeatTime ∧
    (detectHeavyBeatShift now e s).2.lastTransitionTime = s.lastTransitionTime ∧
    (detectHeavyBeatShift now e s).2.currentBeatIntensity = s.currentBeatIntensity := by
  unfold detectHeavyBeatShift
  dsimp only
  split_ifs <;> exact ⟨rfl, rfl, rfl, rfl, rfl⟩

lemma detectHeavyBeatShift_fired_iff (now e : ℚ) (s : BeatState) :
    (detectHeavyBeatShift now e s).1.isSome = true ↔
      (HEAVY_BEAT_PRE_SILENCE_FRAMES + 5 ≤ s.energyHistory.length ∧
        MIN_HEAVY_BEAT_INTERVAL_MS ≤ now - s.lastHeavyBeatShiftTime ∧
        10 ≤ getRollingAverage s.energyHistory ∧
        getRollingAverage s.energyHistory * HEAVY_BEAT_THRESHOLD < e ∧
        (preSilenceWindow s.energyHistory).sum /
            ((preSilenceWindow s.energyHistory).length : ℚ) <
          getRollingAverage s.energyHistory * HEAVY_BEAT_LOW_ENERGY_FACTOR) := by
  unfold detectHeavyBeatShift
  dsimp only
  split_ifs with h1 h2 h3 h4 h5 h6
  · simp only [Option.isSome_none, Bool.false_eq_true, false_iff]
    intro hc
    exact absurd hc.1 (by omega)
  · simp only [Option.isSome_none, Bool.false_eq_true, false_iff]
    intro hc
    exact absurd hc.2.1 (by linarith)
  · simp only [Option.isSome_none, Bool.false_eq_true, false_iff]
    intro hc
    exact absurd hc.2.2.1 (by linarith)
  · simp only [Option.isSome_none, Bool.false_eq_true, false_iff]
    intro hc
    exact absurd hc.2.2.2.1 (by linarith)
  · refine absurd (preSilenceWindow_length s.energyHistory ?_) (by omega)
    simp only [HEAVY_BEAT_PRE_SILENCE_FRAMES] at h1
    omega
  · simp only [Option.isSome_none, Bool.false_eq_true, false_iff]
    intro hc
    exact absurd hc.2.2.2.2 (by linarith)
  · simp only [Option.isSome_some, true_iff]
    exact ⟨by omega, by linarith, by linarith, by linarith, by linarith⟩

end BeatDet

namespace BeatDet

lemma checkForTransition_fired_iff (now : ℚ) (s : BeatState) :
    (checkForTransition now s).1.isSome = true ↔
      (TRANSITION_HISTORY_SIZE ≤ s.longTermEnergyHistory.length ∧
        MIN_TRANSITION_INTERVAL_MS ≤ now - s.lastTransitionTime ∧
        15 ≤ getLongTermAverage s.longTermEnergyHistory ∧
        1/5 < transitionIntensityOf s.longTermEnergyHistory) := by
  unfold checkForTransition
  dsimp only
  split_ifs with h1 h2 h3 h4
  · simp only [Option.isSome_none, Bool.false_eq_true, false_iff]
    intro hc
    exact absurd hc.1 (by omega)
  · simp only [Option.isSome_none, Bool.false_eq_true, false_iff]
    intro hc
    exact absurd hc.2.1 (by linarith)
  · simp only [Option.isSome_none, Bool.false_eq_true, false_iff]
    intro hc
    exact absurd hc.2.2.1 (by linarith)
  · simp only [Option.isSome_some, true_iff]
    exact ⟨by omega, by linarith, by linarith, h4⟩
  · simp only [Option.isSome_none, Bool.false_eq_true, false_iff]
    intro hc
    exact absurd hc.2.2.2 h4

lemma checkForTransition_lastTransitionTime (now : ℚ) (s : BeatState) :
    (checkForTransition now s).2.lastTransitionTime =
      if (checkForTransition now s).1.isSome then now else s.lastTransitionTime := by
  unfold checkForTransition
  dsimp only
  split_ifs <;> simp_all

lemma detectHeavyBeatShift_lastHeavyTime (now e : ℚ) (s : BeatState) :
    (detectHeavyBeatShift now e s).2.lastHeavyBeatShiftTime =
      if (detectHeavyBeatShift now e s).1.isSome then now
      else s.lastHeavyBeatShiftTime := by
  unfold detectHeavyBeatShift
  dsimp only
  split_ifs <;> simp_all

end BeatDet

namespace BeatDet

lemma update_beat_iff (now e : ℚ) (s : BeatState) :
    (updateBeatDetection now e s).1.beat.isSome = true ↔
      (beatQualifies s e ∧ MIN_BEAT_INTERVAL_MS < now - s.lastBeatTime) := by
  have hE := detectHeavyBeatShift_snd now e (checkForTransition now
      { s with energyHistory := pushWindow HISTORY_SIZE e s.energyHistory
               longTermEnergyHistory :=
                pushWindow TRANSITION_HISTORY_SIZE e s.longTermEnergyHistory }).2
  have hT := checkForTransition_snd now
      { s with energyHistory := pushWindow HISTORY_SIZE e s.energyHistory
               longTermEnergyHistory :=
                pushWindow TRANSITION_HISTORY_SIZE e s.longTermEnergyHistory }
  unfold updateBeatDetection
  dsimp only
  rw [hE.1, hT.1, hE.2.2.1, hT.2.2.1]
  dsimp only
  split_ifs with h1 h2
  · simp only [Option.isSome_none, Bool.false_eq_true, false_iff]
    rintro ⟨⟨hq1, hq2, hq3⟩, ht⟩
    exact absurd hq1 (by push_neg; exact h1)
  · simp only [Option.isSome_some, true_iff]
    exact ⟨⟨by push_neg at h1; exact h1, h2.1, h2.2.1⟩, h2.2.2⟩
  · simp only [Option.isSome_none, Bool.false_eq_true, false_iff]
    rintro ⟨⟨hq1, hq2, hq3⟩, ht⟩
    exact h2 ⟨hq2, hq3, ht⟩

end BeatDet

namespace BeatDet

lemma update_heavyShift_eq (now e : ℚ) (s : BeatState) :
    (updateBeatDetection now e s).1.heavyShift =
      (detectHeavyBeatShift now e (checkForTransition now
        { s with energyHistory := pushWindow HISTORY_SIZE e s.energyHistory
                 longTermEnergyHistory :=
                  pushWindow TRANSITION_HISTORY_SIZE e s.longTermEnergyHistory }).2).1 := by
  unfold updateBeatDetection
  dsimp only
  split_ifs <;> rfl

lemma update_transition_eq (now e : ℚ) (s : BeatState) :
    (updateBeatDetection now e s).1.transition =
      (checkForTransition now
        { s with energyHistory := pushWindow HISTORY_SIZE e s.energyHistory
                 longTermEnergyHistory :=
                  pushWindow TRANSITION_HISTORY_SIZE e s.longTermEnergyHistory }).1 := by
  unfold updateBeatDetection
  dsimp only
  split_ifs <;> rfl

lemma update_heavy_iff (now e : ℚ) (s : BeatState) :
    (updateBeatDetection now e s).1.heavyShift.isSome = true ↔
      (heavyQualifies s e ∧
        MIN_HEAVY_BEAT_INTERVAL_MS ≤ now - s.lastHeavyBeatShiftTime) := by
  have hT := checkForTransition_snd now
      { s with energyHistory := pushWindow HISTORY_SIZE e s.energyHistory
               longTermEnergyHistory :=
                pushWindow TRANSITION_HISTORY_SIZE e s.longTermEnergyHistory }
  have hiff := detectHeavyBeatShift_fired_iff now e (checkForTransition now
      { s with energyHistory := pushWindow HISTORY_SIZE e s.energyHistory
               longTermEnergyHistory :=
                pushWindow TRANSITION_HISTORY_SIZE e s.longTermEnergyHistory }).2
  rw [hT.1, hT.2.2.2.1] at hiff
  rw [update_heavyShift_eq, hiff]
  unfold heavyQualifies
  dsimp only
  exact ⟨fun ⟨a, b, c, d, e2⟩ => ⟨⟨a, c, d, e2⟩, b⟩,
    fun ⟨⟨a, c, d, e2⟩, b⟩ => ⟨a, b, c, d, e2⟩⟩

lemma update_transition_iff (now e : ℚ) (s : BeatState) :
    (updateBeatDetection now e s).1.transition.isSome = true ↔
      (transitionQualifies s e ∧
        MIN_TRANSITION_INTERVAL_MS ≤ now - s.lastTransitionTime) := by
  have hiff := checkForTransition_fired_iff now
      { s with energyHistory := pushWindow HISTORY_SIZE e s.energyHistory
               longTermEnergyHistory :=
                pushWindow TRANSITION_HISTORY_SIZE e s.longTermEnergyHistory }
  rw [update_transition_eq, hiff]
  unfold transitionQualifies
  dsimp only
  exact ⟨fun ⟨a, b, c, d⟩ => ⟨⟨a, c, d⟩, b⟩, fun ⟨⟨a, c, d⟩, b⟩ => ⟨a, b, c, d⟩⟩

lemma update_energyHistory (now e : ℚ) (s : BeatState) :
    (updateBeatDetection now e s).2.energyHistory =
      pushWindow HISTORY_SIZE e s.energyHistory := by
  have hE := detectHeavyBeatShift_snd now e (checkForTransition now
      { s with energyHistory := pushWindow HISTORY_SIZE e s.energyHistory
               longTermEnergyHistory :=
                pushWindow TRANSITION_HISTORY_SIZE e s.longTermEnergyHistory }).2
  have hT := checkForTransition_snd now
      { s with energyHistory := pushWindow HISTORY_SIZE e s.energyHistory
               longTermEnergyHistory :=
                pushWindow TRANSITION_HISTORY_SIZE e s.longTermEnergyHistory }
  unfold updateBeatDetection
  dsimp only
  split_ifs <;> dsimp only <;> rw [hE.1, hT.1]

lemma update_longTermEnergyHistory (now e : ℚ) (s : BeatState) :
    (updateBeatDetection now e s).2.longTermEnergyHistory =
      pushWindow TRANSITION_HISTORY_SIZE e s.longTermEnergyHistory := by
  have hE := detectHeavyBeatShift_snd now e (checkForTransition now
      { s with energyHistory := pushWindow HISTORY_SIZE e s.energyHistory
               longTermEnergyHistory :=
                pushWindow TRANSITION_HISTORY_SIZE e s.longTermEnergyHistory }).2
  have hT := checkForTransition_snd now
      { s with energyHistory := pushWindow HISTORY_SIZE e s.energyHistory
               longTermEnergyHistory :=
                pushWindow TRANSITION_HISTORY_SIZE e s.longTermEnergyHistory }
  unfold updateBeatDetection
  dsimp only
  split_ifs <;> dsimp only <;> rw [hE.2.1, hT.2.1]

end BeatDet

namespace BeatDet

lemma update_lastBeatTime (now e : ℚ) (s : BeatState) :
    (updateBeatDetection now e s).2.lastBeatTime =
      if (updateBeatDetection now e s).1.beat.isSome then now
      else s.lastBeatTime := by
  have hE := detectHeavyBeatShift_snd now e (checkForTransition now
      { s with energyHistory := pushWindow HISTORY_SIZE e s.energyHistory
               longTermEnergyHistory :=
                pushWindow TRANSITION_HISTORY_SIZE e s.longTermEnergyHistory }).2
  have hT := checkForTransition_snd now
      { s with energyHistory := pushWindow HISTORY_SIZE e s.energyHistory
               longTermEnergyHistory :=
                pushWindow TRANSITION_HISTORY_SIZE e s.longTermEnergyHistory }
  unfold updateBeatDetection
  dsimp only
  split_ifs <;> simp_all

lemma update_lastHeavyTime (now e : ℚ) (s : BeatState) :
    (updateBeatDetection now e s).2.lastHeavyBeatShiftTime =
      if (updateBeatDetection now e s).1.heavyShift.isSome then now
      else s.lastHeavyBeatShiftTime := by
  have hT := checkForTransition_snd now
      { s with energyHistory := pushWindow HISTORY_SIZE e s.energyHistory
               longTermEnergyHistory :=
                pushWindow TRANSITION_HISTORY_SIZE e s.longTermEnergyHistory }
  have hD := detectHeavyBeatShift_lastHeavyTime now e (checkForTransition now
      { s with energyHistory := pushWindow HISTORY_SIZE e s.energyHistory
               longTermEnergyHistory :=
                pushWindow TRANSITION_HISTORY_SIZE e s.longTermEnergyHistory }).2
  rw [update_heavyShift_eq]
  unfold updateBeatDetection
  dsimp only
  split_ifs <;> simp_all

lemma update_lastTransitionTime (now e : ℚ) (s : BeatState) :
    (updateBeatDetection now e s).2.lastTransitionTime =
      if (updateBeatDetection now e s).1.transition.isSome then now
      else s.lastTransitionTime := by
  have hE := detectHeavyBeatShift_snd now e (checkForTransition now
      { s with energyHistory := pushWindow HISTORY_SIZE e s.energyHistory
               longTermEnergyHistory :=
                pushWindow TRANSITION_HISTORY_SIZE e s.longTermEnergyHistory }).2
  have hC := checkForTransition_lastTransitionTime now
      { s with energyHistory := pushWindow HISTORY_SIZE e s.energyHistory
               longTermEnergyHistory :=
                pushWindow TRANSITION_HISTORY_SIZE e s.longTermEnergyHistory }
  rw [update_transition_eq]
  unfold updateBeatDetection
  dsimp only
  split_ifs <;> simp_all

lemma update_cbi_zero (now e : ℚ) (s : BeatState)
    (hcbi : s.currentBeatIntensity = 0)
    (hbeat : (updateBeatDetection now e s).1.beat = none) :
    (updateBeatDetection now e s).2.currentBeatIntensity = 0 := by
  have hE := detectHeavyBeatShift_snd now e (checkForTransition now
      { s with energyHistory := pushWindow HISTORY_SIZE e s.energyHistory
               longTermEnergyHistory :=
                pushWindow TRANSITION_HISTORY_SIZE e s.longTermEnergyHistory }).2
  have hT := checkForTransition_snd now
      { s with energyHistory := pushWindow HISTORY_SIZE e s.energyHistory
               longTermEnergyHistory :=
                pushWindow TRANSITION_HISTORY_SIZE e s.longTermEnergyHistory }
  unfold updateBeatDetection at hbeat ⊢
  dsimp only at hbeat ⊢
  split_ifs at hbeat ⊢ <;> simp_all

end BeatDet

namespace BeatDet

lemma getRollingAverage_replicate (c : ℚ) (m : ℕ) (hm : 0 < m) :
    getRollingAverage (List.replicate m c) = c := by
  unfold getRollingAverage
  rw [if_neg (by simp; omega)]
  rw [List.sum_replicate, List.length_replicate, nsmul_eq_mul]
  field_simp

lemma pushWindow_length (cap : ℕ) (x : ℚ) (h : List ℚ) :
    (pushWindow cap x h).length =
      if cap < h.length + 1 then h.length else h.length + 1 := by
  unfold pushWindow
  dsimp only
  simp only [List.length_append, List.length_singleton]
  split_ifs with h1
  · simp [List.length_tail]
  · simp

lemma pushWindow_replicate (cap : ℕ) (hcap : 0 < cap) (c : ℚ) (k : ℕ) :
    pushWindow cap c (List.replicate (min k cap) c) =
      List.replicate (min (k + 1) cap) c := by
  unfold pushWindow
  dsimp only
  rcases le_or_lt cap k with hk | hk
  · rw [min_eq_right hk, min_eq_right (by omega)]
    rw [if_pos (by simp)]
    cases cap with
    | zero => omega
    | succ n =>
      rw [List.replicate_succ]
      simp only [List.cons_append, List.tail_cons]
      rw [← List.replicate_succ']
      simp [List.replicate_succ]
  · rw [min_eq_left (by omega), min_eq_left (by omega)]
    rw [if_neg (by simp; omega)]
    rw [← List.replicate_succ']

lemma runFrames_append (l1 l2 : List (ℚ × ℚ)) (s : BeatState) :
    runFrames (l1 ++ l2) s =
      ((runFrames l1 s).1 ++ (runFrames l2 (runFrames l1 s).2).1,
        (runFrames l2 (runFrames l1 s).2).2) := by
  induction l1 generalizing s with
  | nil => simp [runFrames]
  | cons f rest ih =>
    simp only [List.cons_append, runFrames, List.append_eq, ih]

lemma FrameEvents_eq_noEvents (ev : FrameEvents)
    (hb : ev.beat.isSome = false) (ht : ev.transition.isSome = false)
    (hh : ev.heavyShift.isSome = false) : ev = noEvents := by
  cases ev with
  | mk b t h => cases b <;> cases t <;> cases h <;> simp_all [noEvents]

lemma BeatState.ext_of (x y : BeatState)
    (h1 : x.energyHistory = y.energyHistory)
    (h2 : x.longTermEnergyHistory = y.longTermEnergyHistory)
    (h3 : x.lastBeatTime = y.lastBeatTime)
    (h4 : x.lastTransitionTime = y.lastTransitionTime)
    (h5 : x.lastHeavyBeatShiftTime = y.lastHeavyBeatShiftTime)
    (h6 : x.currentBeatIntensity = y.currentBeatIntensity) : x = y := by
  cases x
  cases y
  simp_all

lemma runFrames_const (c : ℚ) (hc : 0 ≤ c) (fs : List (ℚ × ℚ))
    (hfs : ∀ f ∈ fs, f.2 = c) (k : ℕ) (hk : k + fs.length ≤ 119) :
    runFrames fs (constState c k) =
      (List.replicate fs.length noEvents, constState c (k + fs.length)) := by
  induction fs generalizing k with
  | nil => simp [runFrames]
  | cons f rest ih =>
    have hfc : f.2 = c := hfs f (by simp)
    have hbeat : (updateBeatDetection f.1 f.2 (constState c k)).1.beat.isSome
        = false := by
      rw [← Bool.not_eq_true, update_beat_iff]
      rintro ⟨⟨hq1, hq2, hq3⟩, ht⟩
      rcases Nat.eq_zero_or_pos k with hk0 | hk0
      · rw [hk0] at hq2
        simp [constState, getRollingAverage] at hq2
        linarith
      · rw [hfc] at hq3
        rw [constState] at hq2 hq3
        dsimp only at hq2 hq3
        rw [getRollingAverage_replicate c _
          (by simp only [HISTORY_SIZE]; omega)] at hq2 hq3
        unfold BEAT_THRESHOLD at hq3
        linarith
    have hheavy : (updateBeatDetection f.1 f.2 (constState c k)).1.heavyShift.isSome
        = false := by
      rw [← Bool.not_eq_true, update_heavy_iff]
      rintro ⟨⟨hq1, hq2, hq3, hq4⟩, ht⟩
      rw [hfc] at hq3
      rw [constState] at hq3
      dsimp only at hq3
      rw [pushWindow_replicate HISTORY_SIZE (by norm_num [HISTORY_SIZE]) c k,
        getRollingAverage_replicate c _
          (by simp only [HISTORY_SIZE]; omega)] at hq3
      unfold HEAVY_BEAT_THRESHOLD at hq3
      linarith
    have htrans : (updateBeatDetection f.1 f.2 (constState c k)).1.transition.isSome
        = false := by
      rw [← Bool.not_eq_true, update_transition_iff]
      rintro ⟨⟨hq1, hq2, hq3⟩, ht⟩
      rw [constState] at hq1
      dsimp only at hq1
      rw [pushWindow_length] at hq1
      simp only [List.length_replicate, TRANSITION_HISTORY_SIZE] at hq1
      simp only [List.length_cons] at hk
      split_ifs at hq1 <;> omega
    have hev : (updateBeatDetection f.1 f.2 (constState c k)).1 = noEvents :=
      FrameEvents_eq_noEvents _ hbeat htrans hheavy
    have h1 := update_energyHistory f.1 f.2 (constState c k)
    have h2 := update_longTermEnergyHistory f.1 f.2 (constState c k)
    have h3 := update_lastBeatTime f.1 f.2 (constState c k)
    have h4 := update_lastHeavyTime f.1 f.2 (constState c k)
    have h5 := update_lastTransitionTime f.1 f.2 (constState c k)
    have h6 := update_cbi_zero f.1 f.2 (constState c k) (by simp [constState])
      (by rw [← Option.not_isSome_iff_eq_none, hbeat]; simp)
    rw [hbeat] at h3
    rw [hheavy] at h4
    rw [htrans] at h5
    simp only [Bool.false_eq_true, if_false] at h3 h4 h5
    have e1 : (updateBeatDetection f.1 f.2 (constState c k)).2.energyHistory =
        List.replicate (min (k + 1) HISTORY_SIZE) c := by
      rw [h1, hfc, constState]
      dsimp only
      exact pushWindow_replicate HISTORY_SIZE (by norm_num [HISTORY_SIZE]) c k
    have e2 : (updateBeatDetection f.1 f.2 (constState c k)).2.longTermEnergyHistory =
        List.replicate (k + 1) c := by
      rw [h2, hfc, constState]
      dsimp only
      have hmin : List.replicate k c
          = List.replicate (min k TRANSITION_HISTORY_SIZE) c := by
        rw [min_eq_left (by simp only [TRANSITION_HISTORY_SIZE]; simp only [List.length_cons] at hk; omega)]
      rw [hmin,
        pushWindow_replicate TRANSITION_HISTORY_SIZE
          (by norm_num [TRANSITION_HISTORY_SIZE]) c k,
        min_eq_left (by simp only [TRANSITION_HISTORY_SIZE]; simp only [List.length_cons] at hk; omega)]
    have e3 : (updateBeatDetection f.1 f.2 (constState c k)).2.lastBeatTime = 0 := by
      rw [h3]
      simp [constState]
    have e4 : (updateBeatDetection f.1 f.2 (constState c k)).2.lastHeavyBeatShiftTime
        = 0 := by
      rw [h4]
      simp [constState]
    have e5 : (updateBeatDetection f.1 f.2 (constState c k)).2.lastTransitionTime
        = 0 := by
      rw [h5]
      simp [constState]
    have hstate : (updateBeatDetection f.1 f.2 (constState c k)).2 =
        constState c (k + 1) := by
      refine BeatState.ext_of _ _ ?_ ?_ ?_ ?_ ?_ ?_
      · rw [e1]; rfl
      · rw [e2]; rfl
      · rw [e3]; rfl
      · rw [e5]; rfl
      · rw [e4]; rfl
      · rw [h6]; rfl
    simp only [runFrames]
    rw [hstate, hev,
      ih (fun g hg => hfs g (List.mem_cons_of_mem f hg)) (k + 1)
        (by simp only [List.length_cons] at hk; omega)]
    have harith : k + 1 + rest.length = k + (f :: rest).length := by
      simp only [List.length_cons]
      omega
    rw [harith]
    simp [List.replicate_succ]

end BeatDet

namespace BeatDet

lemma silence_step50 :
    updateBeatDetection 3850 60 (constState 5 50) =
      (noEvents, ⟨List.replicate 42 5 ++ [60], List.replicate 50 5 ++ [60],
        0, 0, 0, 0⟩) := by
  norm_num [constState, noEvents, updateBeatDetection, checkForTransition,
    detectHeavyBeatShift, getRollingAverage, getLongTermAverage,
    getRecentAverage, pushWindow, preSilenceWindow, clamp01,
    transitionIntensityOf, HISTORY_SIZE, TRANSITION_HISTORY_SIZE,
    BEAT_THRESHOLD, MIN_BEAT_INTERVAL_MS, HEAVY_BEAT_THRESHOLD,
    HEAVY_BEAT_PRE_SILENCE_FRAMES, HEAVY_BEAT_LOW_ENERGY_FACTOR,
    MIN_HEAVY_BEAT_INTERVAL_MS, MIN_TRANSITION_INTERVAL_MS,
    TRANSITION_THRESHOLD, List.replicate]

lemma silence_step51 :
    updateBeatDetection 3867 8 ⟨List.replicate 42 5 ++ [60],
      List.replicate 50 5 ++ [60], 0, 0, 0, 0⟩ =
      (noEvents, ⟨List.replicate 41 5 ++ [60, 8],
        List.replicate 50 5 ++ [60, 8], 0, 0, 0, 0⟩) := by
  norm_num [noEvents, updateBeatDetection, checkForTransition,
    detectHeavyBeatShift, getRollingAverage, getLongTermAverage,
    getRecentAverage, pushWindow, preSilenceWindow, clamp01,
    transitionIntensityOf, HISTORY_SIZE, TRANSITION_HISTORY_SIZE,
    BEAT_THRESHOLD, MIN_BEAT_INTERVAL_MS, HEAVY_BEAT_THRESHOLD,
    HEAVY_BEAT_PRE_SILENCE_FRAMES, HEAVY_BEAT_LOW_ENERGY_FACTOR,
    MIN_HEAVY_BEAT_INTERVAL_MS, MIN_TRANSITION_INTERVAL_MS,
    TRANSITION_THRESHOLD, List.replicate]

lemma silence_step52 :
    updateBeatDetection 3884 8 ⟨List.replicate 41 5 ++ [60, 8],
      List.replicate 50 5 ++ [60, 8], 0, 0, 0, 0⟩ =
      (noEvents, ⟨List.replicate 40 5 ++ [60, 8, 8],
        List.replicate 50 5 ++ [60, 8, 8], 0, 0, 0, 0⟩) := by
  norm_num [noEvents, updateBeatDetection, checkForTransition,
    detectHeavyBeatShift, getRollingAverage, getLongTermAverage,
    getRecentAverage, pushWindow, preSilenceWindow, clamp01,
    transitionIntensityOf, HISTORY_SIZE, TRANSITION_HISTORY_SIZE,
    BEAT_THRESHOLD, MIN_BEAT_INTERVAL_MS, HEAVY_BEAT_THRESHOLD,
    HEAVY_BEAT_PRE_SILENCE_FRAMES, HEAVY_BEAT_LOW_ENERGY_FACTOR,
    MIN_HEAVY_BEAT_INTERVAL_MS, MIN_TRANSITION_INTERVAL_MS,
    TRANSITION_THRESHOLD, List.replicate]

lemma silence_step53 :
    updateBeatDetection 3901 8 ⟨List.replicate 40 5 ++ [60, 8, 8],
      List.replicate 50 5 ++ [60, 8, 8], 0, 0, 0, 0⟩ =
      (noEvents, ⟨List.replicate 39 5 ++ [60, 8, 8, 8],
        List.replicate 50 5 ++ [60, 8, 8, 8], 0, 0, 0, 0⟩) := by
  norm_num [noEvents, updateBeatDetection, checkForTransition,
    detectHeavyBeatShift, getRollingAverage, getLongTermAverage,
    getRecentAverage, pushWindow, preSilenceWindow, clamp01,
    transitionIntensityOf, HISTORY_SIZE, TRANSITION_HISTORY_SIZE,
    BEAT_THRESHOLD, MIN_BEAT_INTERVAL_MS, HEAVY_BEAT_THRESHOLD,
    HEAVY_BEAT_PRE_SILENCE_FRAMES, HEAVY_BEAT_LOW_ENERGY_FACTOR,
    MIN_HEAVY_BEAT_INTERVAL_MS, MIN_TRANSITION_INTERVAL_MS,
    TRANSITION_THRESHOLD, List.replicate]

lemma filterMap_replicate_none (f : FrameEvents → Option ℚ)
    (hf : f noEvents = none) (n : ℕ) :
    (List.replicate n noEvents).filterMap f = [] := by
  induction n with
  | zero => simp
  | succ m ih => simp [List.replicate_succ, hf, ih]

end BeatDet

namespace BeatDet

/-- C1 (counterexample): running the claimed scenario — 50 frames of
energy 5, one frame of energy 60, then frames of energy 8, with frame
times placed beyond every initial debounce window — fires NO ordinary
beat and NO heavy shift at all: the minimum-mean floor of 10 suppresses
both checks, because the short-window mean stays near 5-6 throughout.
Both subscriber lists therefore receive zero calls, not one. -/
theorem c1_counterexample :
    (runFrames scenSilenceSpike resetBeatDetection).1.filterMap
        FrameEvents.beat = [] ∧
    (runFrames scenSilenceSpike resetBeatDetection).1.filterMap
        FrameEvents.heavyShift = [] := by
  have hreset : resetBeatDetection = constState 5 0 := rfl
  have hpart : runFrames
      ((List.range 50).map fun i : ℕ => ((3000 + 17 * (i : ℚ)), (5 : ℚ)))
      (constState 5 0) = (List.replicate 50 noEvents, constState 5 50) := by
    have h := runFrames_const 5 (by norm_num)
      ((List.range 50).map fun i : ℕ => ((3000 + 17 * (i : ℚ)), (5 : ℚ)))
      (by intro f hf
          simp only [List.mem_map] at hf
          obtain ⟨i, hi, rfl⟩ := hf
          rfl)
      0 (by rw [List.length_map, List.length_range]; norm_num)
    simpa using h
  have hev : (runFrames scenSilenceSpike resetBeatDetection).1 =
      List.replicate 54 noEvents := by
    rw [hreset]
    unfold scenSilenceSpike
    rw [runFrames_append, hpart]
    simp only [runFrames]
    rw [silence_step50]
    dsimp only
    rw [silence_step51]
    dsimp only
    rw [silence_step52]
    dsimp only
    rw [silence_step53]
    dsimp only
    rw [show (List.replicate 54 noEvents)
        = List.replicate 50 noEvents ++ List.replicate 4 noEvents from by
      rw [← List.replicate_add]]
    rfl
  rw [hev]
  exact ⟨filterMap_replicate_none _ rfl 54, filterMap_replicate_none _ rfl 54⟩

end BeatDet

namespace BeatDet

lemma loud_step50 :
    updateBeatDetection 3850 500 (constState 11 50) =
      (⟨some 1, none, some 1⟩, ⟨List.replicate 42 11 ++ [500],
        List.replicate 50 11 ++ [500], 3850, 0, 3850, 1⟩) := by
  norm_num [constState, updateBeatDetection, checkForTransition,
    detectHeavyBeatShift, getRollingAverage, getLongTermAverage,
    getRecentAverage, pushWindow, preSilenceWindow, clamp01,
    transitionIntensityOf, HISTORY_SIZE, TRANSITION_HISTORY_SIZE,
    BEAT_THRESHOLD, MIN_BEAT_INTERVAL_MS, HEAVY_BEAT_THRESHOLD,
    HEAVY_BEAT_PRE_SILENCE_FRAMES, HEAVY_BEAT_LOW_ENERGY_FACTOR,
    MIN_HEAVY_BEAT_INTERVAL_MS, MIN_TRANSITION_INTERVAL_MS,
    TRANSITION_THRESHOLD, List.replicate]

lemma loud_step51 :
    updateBeatDetection 3867 8 ⟨List.replicate 42 11 ++ [500],
      List.replicate 50 11 ++ [500], 3850, 0, 3850, 1⟩ =
      (noEvents, ⟨List.replicate 41 11 ++ [500, 8],
        List.replicate 50 11 ++ [500, 8], 3850, 0, 3850, 19/20⟩) := by
  norm_num [noEvents, updateBeatDetection, checkForTransition,
    detectHeavyBeatShift, getRollingAverage, getLongTermAverage,
    getRecentAverage, pushWindow, preSilenceWindow, clamp01,
    transitionIntensityOf, HISTORY_SIZE, TRANSITION_HISTORY_SIZE,
    BEAT_THRESHOLD, MIN_BEAT_INTERVAL_MS, HEAVY_BEAT_THRESHOLD,
    HEAVY_BEAT_PRE_SILENCE_FRAMES, HEAVY_BEAT_LOW_ENERGY_FACTOR,
    MIN_HEAVY_BEAT_INTERVAL_MS, MIN_TRANSITION_INTERVAL_MS,
    TRANSITION_THRESHOLD, List.replicate]

lemma loud_step52 :
    updateBeatDetection 3884 8 ⟨List.replicate 41 11 ++ [500, 8],
      List.replicate 50 11 ++ [500, 8], 3850, 0, 3850, 19/20⟩ =
      (noEvents, ⟨List.replicate 40 11 ++ [500, 8, 8],
        List.replicate 50 11 ++ [500, 8, 8], 3850, 0, 3850, 9/10⟩) := by
  norm_num [noEvents, updateBeatDetection, checkForTransition,
    detectHeavyBeatShift, getRollingAverage, getLongTermAverage,
    getRecentAverage, pushWindow, preSilenceWindow, clamp01,
    transitionIntensityOf, HISTORY_SIZE, TRANSITION_HISTORY_SIZE,
    BEAT_THRESHOLD, MIN_BEAT_INTERVAL_MS, HEAVY_BEAT_THRESHOLD,
    HEAVY_BEAT_PRE_SILENCE_FRAMES, HEAVY_BEAT_LOW_ENERGY_FACTOR,
    MIN_HEAVY_BEAT_INTERVAL_MS, MIN_TRANSITION_INTERVAL_MS,
    TRANSITION_THRESHOLD, List.replicate]

lemma loud_step53 :
    updateBeatDetection 3901 8 ⟨List.replicate 40 11 ++ [500, 8, 8],
      List.replicate 50 11 ++ [500, 8, 8], 3850, 0, 3850, 9/10⟩ =
      (noEvents, ⟨List.replicate 39 11 ++ [500, 8, 8, 8],
        List.replicate 50 11 ++ [500, 8, 8, 8], 3850, 0, 3850, 17/20⟩) := by
  norm_num [noEvents, updateBeatDetection, checkForTransition,
    detectHeavyBeatShift, getRollingAverage, getLongTermAverage,
    getRecentAverage, pushWindow, preSilenceWindow, clamp01,
    transitionIntensityOf, HISTORY_SIZE, TRANSITION_HISTORY_SIZE,
    BEAT_THRESHOLD, MIN_BEAT_INTERVAL_MS, HEAVY_BEAT_THRESHOLD,
    HEAVY_BEAT_PRE_SILENCE_FRAMES, HEAVY_BEAT_LOW_ENERGY_FACTOR,
    MIN_HEAVY_BEAT_INTERVAL_MS, MIN_TRANSITION_INTERVAL_MS,
    TRANSITION_THRESHOLD, List.replicate]

/-- C1 (amended): the silence floor means the claimed 5/60/8 scenario fires
nothing (see the counterexample); raising the baseline above the floor
and the spike accordingly — 50 frames of energy 11, one frame of energy
500, then frames of energy 8 — makes the spike frame fire both an
ordinary beat and a heavy beat shift, and no other frame fires anything:
each subscriber list receives exactly one call, with intensity 1, which
lies in (0, 1]. -/
theorem c1_amended :
    (runFrames scenLoudSpike resetBeatDetection).1 =
      List.replicate 50 noEvents ++
        [⟨some 1, none, some 1⟩, noEvents, noEvents, noEvents] ∧
    (runFrames scenLoudSpike resetBeatDetection).1.filterMap
        FrameEvents.beat = [1] ∧
    (runFrames scenLoudSpike resetBeatDetection).1.filterMap
        FrameEvents.heavyShift = [1] ∧
    (0 : ℚ) < 1 ∧ (1 : ℚ) ≤ 1 := by
  have hreset : resetBeatDetection = constState 11 0 := rfl
  have hpart : runFrames
      ((List.range 50).map fun i : ℕ => ((3000 + 17 * (i : ℚ)), (11 : ℚ)))
      (constState 11 0) = (List.replicate 50 noEvents, constState 11 50) := by
    have h := runFrames_const 11 (by norm_num)
      ((List.range 50).map fun i : ℕ => ((3000 + 17 * (i : ℚ)), (11 : ℚ)))
      (by intro f hf
          simp only [List.mem_map] at hf
          obtain ⟨i, hi, rfl⟩ := hf
          rfl)
      0 (by rw [List.length_map, List.length_range]; norm_num)
    simpa using h
  have hev : (runFrames scenLoudSpike resetBeatDetection).1 =
      List.replicate 50 noEvents ++
        [⟨some 1, none, some 1⟩, noEvents, noEvents, noEvents] := by
    rw [hreset]
    unfold scenLoudSpike
    rw [runFrames_append, hpart]
    simp only [runFrames]
    rw [loud_step50]
    dsimp only
    rw [loud_step51]
    dsimp only
    rw [loud_step52]
    dsimp only
    rw [loud_step53]
  refine ⟨hev, ?_, ?_, by norm_num, le_refl 1⟩
  · rw [hev, List.filterMap_append, filterMap_replicate_none _ rfl 50]
    rfl
  · rw [hev, List.filterMap_append, filterMap_replicate_none _ rfl 50]
    rfl

end BeatDet

namespace BeatDet

/-- C6: detectHeavyBeatShift fires (returns an intensity and notifies
subscribers) exactly when all of the following hold: the short window
holds at least 17 samples, its mean is at least 10, at least 2000 ms
have passed since the last heavy shift, the current energy exceeds 2.5
times the mean, and the mean of the pre-spike slice — which, whenever
the window holds at least 13 samples, consists of exactly the 12 frames
immediately preceding the current one (the window's last element being
the current frame) — is below 0.5 times the mean. In particular a spike
above 2.5 times the mean whose preceding-window average is at least 0.5
times the mean never fires. -/
theorem c6_heavy_shift_characterization (now e : ℚ) (s : BeatState) :
    ((detectHeavyBeatShift now e s).1.isSome = true ↔
      (17 ≤ s.energyHistory.length ∧
        10 ≤ getRollingAverage s.energyHistory ∧
        2000 ≤ now - s.lastHeavyBeatShiftTime ∧
        getRollingAverage s.energyHistory * (5/2) < e ∧
        (preSilenceWindow s.energyHistory).sum /
            ((preSilenceWindow s.energyHistory).length : ℚ) <
          getRollingAverage s.energyHistory * (1/2))) ∧
    (13 ≤ s.energyHistory.length → (preSilenceWindow s.energyHistory).length = 12) := by
  constructor
  · rw [detectHeavyBeatShift_fired_iff]
    simp only [HEAVY_BEAT_PRE_SILENCE_FRAMES, MIN_HEAVY_BEAT_INTERVAL_MS,
      HEAVY_BEAT_THRESHOLD, HEAVY_BEAT_LOW_ENERGY_FACTOR]
    constructor
    · rintro ⟨a, b, c, d, e2⟩
      exact ⟨a, c, b, d, e2⟩
    · rintro ⟨a, b, c, d, e2⟩
      exact ⟨a, c, b, d, e2⟩
  · exact preSilenceWindow_length s.energyHistory

/-- C6 (witness): a 43-sample window indeed has a 12-frame pre-spike slice. -/
theorem c6_witness :
    (preSilenceWindow (List.replicate 43 (11:ℚ))).length = 12 :=
  (c6_heavy_shift_characterization 5000 500
    ⟨List.replicate 43 (11:ℚ), [], 0, 0, 0, 0⟩).2 (by simp)

end BeatDet

namespace BeatDet

lemma takeLast_length (n : ℕ) (l : List ℚ) :
    (takeLast n l).length = min n l.length := by
  simp only [takeLast, List.length_drop]
  omega

lemma pushWindow_takeLast (cap : ℕ) (hcap : 0 < cap) (x : ℚ) (es : List ℚ) :
    pushWindow cap x (takeLast cap es) = takeLast cap (es ++ [x]) := by
  unfold pushWindow takeLast
  dsimp only
  simp only [List.length_append, List.length_singleton, List.length_drop]
  rcases le_or_lt cap es.length with hk | hk
  · rw [if_pos (by omega)]
    have hne : List.drop (es.length - cap) es ≠ [] := by
      intro hnil
      have := congrArg List.length hnil
      simp only [List.length_drop, List.length_nil] at this
      omega
    rw [List.tail_append_of_ne_nil hne]
    rw [List.tail_drop]
    rw [List.drop_append_of_le_length (by omega)]
    have he : es.length - cap + 1 = es.length + 1 - cap := by omega
    rw [he]
  · rw [if_neg (by omega)]
    have h1 : es.length - cap = 0 := by omega
    have h2 : es.length + 1 - cap = 0 := by omega
    rw [h1, h2, List.drop_zero, List.drop_zero]

lemma runFrames_windows (fs : List (ℚ × ℚ)) (s : BeatState) (es : List ℚ)
    (h1 : s.energyHistory = takeLast HISTORY_SIZE es)
    (h2 : s.longTermEnergyHistory = takeLast TRANSITION_HISTORY_SIZE es) :
    (runFrames fs s).2.energyHistory =
        takeLast HISTORY_SIZE (es ++ fs.map Prod.snd) ∧
      (runFrames fs s).2.longTermEnergyHistory =
        takeLast TRANSITION_HISTORY_SIZE (es ++ fs.map Prod.snd) := by
  induction fs generalizing s es with
  | nil => simpa [runFrames] using ⟨h1, h2⟩
  | cons f rest ih =>
    simp only [runFrames]
    have hs1 : (updateBeatDetection f.1 f.2 s).2.energyHistory =
        takeLast HISTORY_SIZE (es ++ [f.2]) := by
      rw [update_energyHistory, h1,
        pushWindow_takeLast HISTORY_SIZE (by norm_num [HISTORY_SIZE]) f.2 es]
    have hs2 : (updateBeatDetection f.1 f.2 s).2.longTermEnergyHistory =
        takeLast TRANSITION_HISTORY_SIZE (es ++ [f.2]) := by
      rw [update_longTermEnergyHistory, h2,
        pushWindow_takeLast TRANSITION_HISTORY_SIZE
          (by norm_num [TRANSITION_HISTORY_SIZE]) f.2 es]
    have hrec := ih (updateBeatDetection f.1 f.2 s).2 (es ++ [f.2]) hs1 hs2
    simpa [List.append_assoc] using hrec

/-- C7: for every sequence of pushed frames, starting from the reset
state, the short window holds exactly the last 43 energies and the long
window exactly the last 120; neither length ever exceeds its capacity;
the classifier's means are the arithmetic means of exactly those
retained elements; and after pushing at least as many frames as a
capacity the corresponding length equals the capacity and the mean is
the average of the last capacity pushes. -/
theorem c7_rolling_window_invariant (fs : List (ℚ × ℚ)) :
    (runFrames fs resetBeatDetection).2.energyHistory =
        takeLast 43 (fs.map Prod.snd) ∧
    (runFrames fs resetBeatDetection).2.longTermEnergyHistory =
        takeLast 120 (fs.map Prod.snd) ∧
    (runFrames fs resetBeatDetection).2.energyHistory.length ≤ 43 ∧
    (runFrames fs resetBeatDetection).2.longTermEnergyHistory.length ≤ 120 ∧
    (getRollingAverage (runFrames fs resetBeatDetection).2.energyHistory =
      if (takeLast 43 (fs.map Prod.snd)).length = 0 then 0
      else (takeLast 43 (fs.map Prod.snd)).sum /
        ((takeLast 43 (fs.map Prod.snd)).length : ℚ)) ∧
    (43 ≤ fs.length →
      (runFrames fs resetBeatDetection).2.energyHistory.length = 43 ∧
      getRollingAverage (runFrames fs resetBeatDetection).2.energyHistory =
        (takeLast 43 (fs.map Prod.snd)).sum / 43) ∧
    (120 ≤ fs.length →
      (runFrames fs resetBeatDetection).2.longTermEnergyHistory.length = 120 ∧
      getLongTermAverage
          (runFrames fs resetBeatDetection).2.longTermEnergyHistory =
        (takeLast 120 (fs.map Prod.snd)).sum / 120) := by
  have hw := runFrames_windows fs resetBeatDetection []
    (by simp [resetBeatDetection, takeLast]) (by simp [resetBeatDetection, takeLast])
  simp only [List.nil_append, HISTORY_SIZE, TRANSITION_HISTORY_SIZE] at hw
  have hlen : (fs.map Prod.snd).length = fs.length := List.length_map _ _
  have hes := hw.1
  have hlo := hw.2
  refine ⟨hes, hlo, ?_, ?_, ?_, ?_, ?_⟩
  · rw [hes, takeLast_length]
    omega
  · rw [hlo, takeLast_length]
    omega
  · rw [hes]
    unfold getRollingAverage
    rfl
  · intro h43
    have hl : (takeLast 43 (fs.map Prod.snd)).length = 43 := by
      rw [takeLast_length]
      omega
    refine ⟨by rw [hes, hl], ?_⟩
    rw [hes]
    unfold getRollingAverage
    rw [if_neg (by rw [hl]; omega), hl]
    norm_num
  · intro h120
    have hl : (takeLast 120 (fs.map Prod.snd)).length = 120 := by
      rw [takeLast_length]
      omega
    refine ⟨by rw [hlo, hl], ?_⟩
    rw [hlo]
    unfold getLongTermAverage
    rw [if_neg (by rw [hl]; omega), hl]
    norm_num

/-- C7 (witness): after 45 pushes of energy 1 the short window holds
exactly 43 samples and its mean is the average of the last 43 pushes. -/
theorem c7_witness :
    (runFrames (List.replicate 45 ((0:ℚ), (1:ℚ)))
        resetBeatDetection).2.energyHistory.length = 43 ∧
    getRollingAverage (runFrames (List.replicate 45 ((0:ℚ), (1:ℚ)))
        resetBeatDetection).2.energyHistory =
      (takeLast 43 ((List.replicate 45 ((0:ℚ), (1:ℚ))).map Prod.snd)).sum / 43 :=
  (c7_rolling_window_invariant
    (List.replicate 45 ((0:ℚ), (1:ℚ)))).2.2.2.2.2.1 (by simp)

end BeatDet

namespace BeatDet

/-- C9: per-kind debounce and timer independence. First three conjuncts,
one per event kind: after a frame on which the kind fired at time t1, a
second frame less than the kind's debounce interval later never fires
that kind again (whatever its energy), and a third frame that satisfies
the kind's non-timer conditions and lies beyond the interval measured
from t1 does fire. Last three conjuncts: each kind's firing on a frame
is fully determined by its own window and its own debounce timer, so
the other two kinds' timers — the only state their firing mutates
besides their own — can never suppress it. -/
theorem c9_debounce_independence
    (tb1 tb2 tb3 eb1 eb2 eb3 : ℚ) (sb : BeatState)
    (th1 th2 th3 eh1 eh2 eh3 : ℚ) (sh : BeatState)
    (tt1 tt2 tt3 et1 et2 et3 : ℚ) (st : BeatState)
    (nb eb : ℚ) (sbi sbi' : BeatState)
    (nh eh : ℚ) (shi shi' : BeatState)
    (nt et : ℚ) (sti sti' : BeatState) :
    ((updateBeatDetection tb1 eb1 sb).1.beat.isSome = true →
      tb2 - tb1 < MIN_BEAT_INTERVAL_MS →
      (updateBeatDetection tb2 eb2
        (updateBeatDetection tb1 eb1 sb).2).1.beat.isSome = false ∧
      (beatQualifies (updateBeatDetection tb2 eb2
          (updateBeatDetection tb1 eb1 sb).2).2 eb3 →
        MIN_BEAT_INTERVAL_MS < tb3 - tb1 →
        (updateBeatDetection tb3 eb3 (updateBeatDetection tb2 eb2
          (updateBeatDetection tb1 eb1 sb).2).2).1.beat.isSome = true)) ∧
    ((updateBeatDetection th1 eh1 sh).1.heavyShift.isSome = true →
      th2 - th1 < MIN_HEAVY_BEAT_INTERVAL_MS →
      (updateBeatDetection th2 eh2
        (updateBeatDetection th1 eh1 sh).2).1.heavyShift.isSome = false ∧
      (heavyQualifies (updateBeatDetection th2 eh2
          (updateBeatDetection th1 eh1 sh).2).2 eh3 →
        MIN_HEAVY_BEAT_INTERVAL_MS ≤ th3 - th1 →
        (updateBeatDetection th3 eh3 (updateBeatDetection th2 eh2
          (updateBeatDetection th1 eh1 sh).2).2).1.heavyShift.isSome = true)) ∧
    ((updateBeatDetection tt1 et1 st).1.transition.isSome = true →
      tt2 - tt1 < MIN_TRANSITION_INTERVAL_MS →
      (updateBeatDetection tt2 et2
        (updateBeatDetection tt1 et1 st).2).1.transition.isSome = false ∧
      (transitionQualifies (updateBeatDetection tt2 et2
          (updateBeatDetection tt1 et1 st).2).2 et3 →
        MIN_TRANSITION_INTERVAL_MS ≤ tt3 - tt1 →
        (updateBeatDetection tt3 et3 (updateBeatDetection tt2 et2
          (updateBeatDetection tt1 et1 st).2).2).1.transition.isSome = true)) ∧
    (sbi'.energyHistory = sbi.energyHistory →
      sbi'.lastBeatTime = sbi.lastBeatTime →
      (updateBeatDetection nb eb sbi').1.beat.isSome =
        (updateBeatDetection nb eb sbi).1.beat.isSome) ∧
    (shi'.energyHistory = shi.energyHistory →
      shi'.lastHeavyBeatShiftTime = shi.lastHeavyBeatShiftTime →
      (updateBeatDetection nh eh shi').1.heavyShift.isSome =
        (updateBeatDetection nh eh shi).1.heavyShift.isSome) ∧
    (sti'.longTermEnergyHistory = sti.longTermEnergyHistory →
      sti'.lastTransitionTime = sti.lastTransitionTime →
      (updateBeatDetection nt et sti').1.transition.isSome =
        (updateBeatDetection nt et sti).1.transition.isSome) := by
  refine ⟨?_, ?_, ?_, ?_, ?_, ?_⟩
  · intro h1 h2
    have hL1 : (updateBeatDetection tb1 eb1 sb).2.lastBeatTime = tb1 := by
      rw [update_lastBeatTime, if_pos h1]
    have hsup : (updateBeatDetection tb2 eb2
        (updateBeatDetection tb1 eb1 sb).2).1.beat.isSome = false := by
      rw [← Bool.not_eq_true, update_beat_iff]
      rintro ⟨-, hgt⟩
      rw [hL1] at hgt
      simp only [MIN_BEAT_INTERVAL_MS] at h2 hgt
      linarith
    refine ⟨hsup, fun hq h3 => ?_⟩
    have hL2 : (updateBeatDetection tb2 eb2
        (updateBeatDetection tb1 eb1 sb).2).2.lastBeatTime = tb1 := by
      rw [update_lastBeatTime, hsup]
      simpa using hL1
    rw [update_beat_iff]
    exact ⟨hq, by rw [hL2]; exact h3⟩
  · intro h1 h2
    have hL1 : (updateBeatDetection th1 eh1 sh).2.lastHeavyBeatShiftTime = th1 := by
      rw [update_lastHeavyTime, if_pos h1]
    have hsup : (updateBeatDetection th2 eh2
        (updateBeatDetection th1 eh1 sh).2).1.heavyShift.isSome = false := by
      rw [← Bool.not_eq_true, update_heavy_iff]
      rintro ⟨-, hge⟩
      rw [hL1] at hge
      simp only [MIN_HEAVY_BEAT_INTERVAL_MS] at h2 hge
      linarith
    refine ⟨hsup, fun hq h3 => ?_⟩
    have hL2 : (updateBeatDetection th2 eh2
        (updateBeatDetection th1 eh1 sh).2).2.lastHeavyBeatShiftTime = th1 := by
      rw [update_lastHeavyTime, hsup]
      simpa using hL1
    rw [update_heavy_iff]
    exact ⟨hq, by rw [hL2]; exact h3⟩
  · intro h1 h2
    have hL1 : (updateBeatDetection tt1 et1 st).2.lastTransitionTime = tt1 := by
      rw [update_lastTransitionTime, if_pos h1]
    have hsup : (updateBeatDetection tt2 et2
        (updateBeatDetection tt1 et1 st).2).1.transition.isSome = false := by
      rw [← Bool.not_eq_true, update_transition_iff]
      rintro ⟨-, hge⟩
      rw [hL1] at hge
      simp only [MIN_TRANSITION_INTERVAL_MS] at h2 hge
      linarith
    refine ⟨hsup, fun hq h3 => ?_⟩
    have hL2 : (updateBeatDetection tt2 et2
        (updateBeatDetection tt1 et1 st).2).2.lastTransitionTime = tt1 := by
      rw [update_lastTransitionTime, hsup]
      simpa using hL1
    rw [update_transition_iff]
    exact ⟨hq, by rw [hL2]; exact h3⟩
  · intro hE hB
    have hq : beatQualifies sbi' eb = beatQualifies sbi eb := by
      unfold beatQualifies
      rw [hE]
    rw [Bool.eq_iff_iff, update_beat_iff, update_beat_iff, hq, hB]
  · intro hE hH
    have hq : heavyQualifies shi' eh = heavyQualifies shi eh := by
      unfold heavyQualifies
      rw [hE]
    rw [Bool.eq_iff_iff, update_heavy_iff, update_heavy_iff, hq, hH]
  · intro hL hT
    have hq : transitionQualifies sti' et = transitionQualifies sti et := by
      unfold transitionQualifies
      rw [hL]
    rw [Bool.eq_iff_iff, update_transition_iff, update_transition_iff, hq, hT]

end BeatDet

namespace BeatDet

set_option maxRecDepth 8000 in
/-- C9 (witness): concrete runs of the three debounce scenarios — for
each kind the second spike inside the interval is suppressed and the
third beyond it fires — plus, for each kind, a pair of states differing
only in the other kinds' timers on which the frame's outcome agrees. -/
theorem c9_witness :
    ((updateBeatDetection 3050 100 (updateBeatDetection 3000 100
        s0B).2).1.beat.isSome = false ∧
      (updateBeatDetection 3200 100 (updateBeatDetection 3050 100
        (updateBeatDetection 3000 100 s0B).2).2).1.beat.isSome = true) ∧
    ((updateBeatDetection 5500 200 (updateBeatDetection 5000 100
        s0H).2).1.heavyShift.isSome = false ∧
      (updateBeatDetection 8000 1300 (updateBeatDetection 5500 200
        (updateBeatDetection 5000 100 s0H).2).2).1.heavyShift.isSome = true) ∧
    ((updateBeatDetection 10000 20 (updateBeatDetection 9000 3000
        s0T).2).1.transition.isSome = false ∧
      (updateBeatDetection 18000 20 (updateBeatDetection 10000 20
        (updateBeatDetection 9000 3000 s0T).2).2).1.transition.isSome = true) ∧
    (updateBeatDetection 3000 100 s0Bvar).1.beat.isSome =
      (updateBeatDetection 3000 100 s0B).1.beat.isSome ∧
    (updateBeatDetection 5000 100 s0Hvar).1.heavyShift.isSome =
      (updateBeatDetection 5000 100 s0H).1.heavyShift.isSome ∧
    (updateBeatDetection 9000 3000 s0Tvar).1.transition.isSome =
      (updateBeatDetection 9000 3000 s0T).1.transition.isSome := by
  have h := c9_debounce_independence 3000 3050 3200 100 100 100 s0B
    5000 5500 8000 100 200 1300 s0H
    9000 10000 18000 3000 20 20 s0T
    3000 100 s0B s0Bvar 5000 100 s0H s0Hvar 9000 3000 s0T s0Tvar
  obtain ⟨k1, k2, k3, k4, k5, k6⟩ := h
  have hb1 : (updateBeatDetection 3000 100 s0B).1.beat.isSome = true := by
    norm_num [s0B, updateBeatDetection, checkForTransition,
      detectHeavyBeatShift, getRollingAverage, getLongTermAverage,
      getRecentAverage, pushWindow, preSilenceWindow, clamp01,
      transitionIntensityOf, HISTORY_SIZE, TRANSITION_HISTORY_SIZE,
      BEAT_THRESHOLD, MIN_BEAT_INTERVAL_MS, HEAVY_BEAT_THRESHOLD,
      HEAVY_BEAT_PRE_SILENCE_FRAMES, HEAVY_BEAT_LOW_ENERGY_FACTOR,
      MIN_HEAVY_BEAT_INTERVAL_MS, MIN_TRANSITION_INTERVAL_MS,
      TRANSITION_THRESHOLD, List.replicate]
  have hh1 : (updateBeatDetection 5000 100 s0H).1.heavyShift.isSome = true := by
    norm_num [s0H, updateBeatDetection, checkForTransition,
      detectHeavyBeatShift, getRollingAverage, getLongTermAverage,
      getRecentAverage, pushWindow, preSilenceWindow, clamp01,
      transitionIntensityOf, HISTORY_SIZE, TRANSITION_HISTORY_SIZE,
      BEAT_THRESHOLD, MIN_BEAT_INTERVAL_MS, HEAVY_BEAT_THRESHOLD,
      HEAVY_BEAT_PRE_SILENCE_FRAMES, HEAVY_BEAT_LOW_ENERGY_FACTOR,
      MIN_HEAVY_BEAT_INTERVAL_MS, MIN_TRANSITION_INTERVAL_MS,
      TRANSITION_THRESHOLD, List.replicate]
  have ht1 : (updateBeatDetection 9000 3000 s0T).1.transition.isSome = true := by
    norm_num [s0T, updateBeatDetection, checkForTransition,
      detectHeavyBeatShift, getRollingAverage, getLongTermAverage,
      getRecentAverage, pushWindow, preSilenceWindow, clamp01,
      transitionIntensityOf, HISTORY_SIZE, TRANSITION_HISTORY_SIZE,
      BEAT_THRESHOLD, MIN_BEAT_INTERVAL_MS, HEAVY_BEAT_THRESHOLD,
      HEAVY_BEAT_PRE_SILENCE_FRAMES, HEAVY_BEAT_LOW_ENERGY_FACTOR,
      MIN_HEAVY_BEAT_INTERVAL_MS, MIN_TRANSITION_INTERVAL_MS,
      TRANSITION_THRESHOLD, List.replicate]
  have hbq : beatQualifies (updateBeatDetection 3050 100
      (updateBeatDetection 3000 100 s0B).2).2 100 := by
    norm_num [s0B, beatQualifies, updateBeatDetection, checkForTransition,
      detectHeavyBeatShift, getRollingAverage, getLongTermAverage,
      getRecentAverage, pushWindow, preSilenceWindow, clamp01,
      transitionIntensityOf, HISTORY_SIZE, TRANSITION_HISTORY_SIZE,
      BEAT_THRESHOLD, MIN_BEAT_INTERVAL_MS, HEAVY_BEAT_THRESHOLD,
      HEAVY_BEAT_PRE_SILENCE_FRAMES, HEAVY_BEAT_LOW_ENERGY_FACTOR,
      MIN_HEAVY_BEAT_INTERVAL_MS, MIN_TRANSITION_INTERVAL_MS,
      TRANSITION_THRESHOLD, List.replicate]
  have hhq : heavyQualifies (updateBeatDetection 5500 200
      (updateBeatDetection 5000 100 s0H).2).2 1300 := by
    norm_num [s0H, heavyQualifies, updateBeatDetection, checkForTransition,
      detectHeavyBeatShift, getRollingAverage, getLongTermAverage,
      getRecentAverage, pushWindow, preSilenceWindow, clamp01,
      transitionIntensityOf, HISTORY_SIZE, TRANSITION_HISTORY_SIZE,
      BEAT_THRESHOLD, MIN_BEAT_INTERVAL_MS, HEAVY_BEAT_THRESHOLD,
      HEAVY_BEAT_PRE_SILENCE_FRAMES, HEAVY_BEAT_LOW_ENERGY_FACTOR,
      MIN_HEAVY_BEAT_INTERVAL_MS, MIN_TRANSITION_INTERVAL_MS,
      TRANSITION_THRESHOLD, List.replicate]
  have htq : transitionQualifies (updateBeatDetection 10000 20
      (updateBeatDetection 9000 3000 s0T).2).2 20 := by
    norm_num [s0T, transitionQualifies, updateBeatDetection, checkForTransition,
      detectHeavyBeatShift, getRollingAverage, getLongTermAverage,
      getRecentAverage, pushWindow, preSilenceWindow, clamp01,
      transitionIntensityOf, HISTORY_SIZE, TRANSITION_HISTORY_SIZE,
      BEAT_THRESHOLD, MIN_BEAT_INTERVAL_MS, HEAVY_BEAT_THRESHOLD,
      HEAVY_BEAT_PRE_SILENCE_FRAMES, HEAVY_BEAT_LOW_ENERGY_FACTOR,
      MIN_HEAVY_BEAT_INTERVAL_MS, MIN_TRANSITION_INTERVAL_MS,
      TRANSITION_THRESHOLD, List.replicate]
  have hb := k1 hb1 (by norm_num [MIN_BEAT_INTERVAL_MS])
  have hh := k2 hh1 (by norm_num [MIN_HEAVY_BEAT_INTERVAL_MS])
  have ht := k3 ht1 (by norm_num [MIN_TRANSITION_INTERVAL_MS])
  exact ⟨⟨hb.1, hb.2 hbq (by norm_num [MIN_BEAT_INTERVAL_MS])⟩,
    ⟨hh.1, hh.2 hhq (by norm_num [MIN_HEAVY_BEAT_INTERVAL_MS])⟩,
    ⟨ht.1, ht.2 htq (by norm_num [MIN_TRANSITION_INTERVAL_MS])⟩,
    k4 rfl rfl, k5 rfl rfl, k6 rfl rfl⟩

end BeatDet

namespace FPath

lemma distanceTo_nonneg (a b : Point) : 0 ≤ distanceTo a b :=
  Real.sqrt_nonneg _

lemma distanceTo_eq_zero {a b : Point} (h : distanceTo a b = 0) : a = b := by
  obtain ⟨a1, a2, a3⟩ := a
  obtain ⟨b1, b2, b3⟩ := b
  unfold distanceTo at h
  dsimp only at h
  have hnn : (0:ℝ) ≤ (b1 - a1)^2 + (b2 - a2)^2 + (b3 - a3)^2 := by positivity
  have hsum : (b1 - a1)^2 + (b2 - a2)^2 + (b3 - a3)^2 = 0 :=
    (Real.sqrt_eq_zero hnn).mp h
  have h1 : b1 = a1 := by
    nlinarith [sq_nonneg (b1 - a1), sq_nonneg (b2 - a2), sq_nonneg (b3 - a3)]
  have h2 : b2 = a2 := by
    nlinarith [sq_nonneg (b1 - a1), sq_nonneg (b2 - a2), sq_nonneg (b3 - a3)]
  have h3 : b3 = a3 := by
    nlinarith [sq_nonneg (b1 - a1), sq_nonneg (b2 - a2), sq_nonneg (b3 - a3)]
  simp [Prod.mk.injEq, h1.symm, h2.symm, h3.symm]

lemma segLengths_cons (a b : Point) (rest : List Point) :
    segLengths (a :: b :: rest) = distanceTo a b :: segLengths (b :: rest) := rfl

lemma segLengths_nonneg (cps : List Point) : ∀ l ∈ segLengths cps, 0 ≤ l := by
  induction cps with
  | nil => intro l hl; simp [segLengths] at hl
  | cons a tail ih =>
    cases tail with
    | nil => intro l hl; simp [segLengths] at hl
    | cons b rest =>
      intro l hl
      rw [segLengths_cons] at hl
      rcases List.mem_cons.mp hl with h | h
      · rw [h]; exact Real.sqrt_nonneg _
      · exact ih l h

lemma segLengths_length (cps : List Point) :
    (segLengths cps).length = cps.length - 1 := by
  induction cps with
  | nil => simp [segLengths]
  | cons a tail ih =>
    cases tail with
    | nil => simp [segLengths]
    | cons b rest =>
      rw [segLengths_cons]
      simp only [List.length_cons] at ih ⊢
      omega

lemma cumAux_length (c : ℝ) (ls : List ℝ) :
    (cumAux c ls).length = ls.length + 1 := by
  induction ls generalizing c with
  | nil => simp [cumAux]
  | cons l tl ih => simp [cumAux, ih]

lemma cumAux_getLastD (c : ℝ) (ls : List ℝ) (x : ℝ) :
    (cumAux c ls).getLastD x = c + ls.sum := by
  induction ls generalizing c x with
  | nil => simp [cumAux]
  | cons l tl ih =>
    simp only [cumAux, List.getLastD_cons, List.sum_cons]
    rw [ih]
    ring

lemma totalLength_eq_sum (cps : List Point) :
    totalLength cps = (segLengths cps).sum := by
  unfold totalLength cumulativeDistances
  rw [cumAux_getLastD]
  ring

lemma totalLength_nonneg (cps : List Point) : 0 ≤ totalLength cps := by
  rw [totalLength_eq_sum]
  exact List.sum_nonneg (segLengths_nonneg cps)

lemma sum_nonneg_all_zero {ls : List ℝ} (hnn : ∀ l ∈ ls, 0 ≤ l)
    (h : ls.sum = 0) : ∀ l ∈ ls, l = 0 := by
  induction ls with
  | nil => simp
  | cons a tl ih =>
    simp only [List.sum_cons] at h
    have ha : 0 ≤ a := hnn a (by simp)
    have htl : 0 ≤ tl.sum :=
      List.sum_nonneg (fun l hl => hnn l (List.mem_cons_of_mem _ hl))
    have ha0 : a = 0 := by linarith
    intro l hl
    rcases List.mem_cons.mp hl with h' | h'
    · rw [h', ha0]
    · exact ih (fun x hx => hnn x (List.mem_cons_of_mem _ hx)) (by linarith) l h'

lemma headD_eq_getLastD_aux :
    ∀ (cps : List Point), (∀ l ∈ segLengths cps, l = 0) →
      cps.headD (0, 0, 0) = cps.getLastD (0, 0, 0) := by
  intro cps
  induction cps with
  | nil => intro _; rfl
  | cons a tail ih =>
    cases tail with
    | nil => intro _; rfl
    | cons b rest =>
      intro hz
      have hab : a = b := distanceTo_eq_zero
        (hz _ (by rw [segLengths_cons]; exact List.mem_cons_self _ _))
      have htail := ih (fun l hl =>
        hz l (by rw [segLengths_cons]; exact List.mem_cons_of_mem _ hl))
      simp only [List.headD_cons, List.getLastD_cons] at htail ⊢
      rw [hab]
      exact htail

lemma headD_eq_getLastD_of_total_zero (cps : List Point)
    (h : totalLength cps = 0) :
    cps.headD (0, 0, 0) = cps.getLastD (0, 0, 0) := by
  rw [totalLength_eq_sum] at h
  exact headD_eq_getLastD_aux cps (sum_nonneg_all_zero (segLengths_nonneg cps) h)

lemma getLastD_mem : ∀ (l : List ℝ) (x : ℝ), l ≠ [] → l.getLastD x ∈ l := by
  intro l
  induction l with
  | nil => intro x h; exact absurd rfl h
  | cons a tl ih =>
    intro x _
    cases tl with
    | nil => simp
    | cons b tl2 =>
      rw [List.getLastD_cons]
      exact List.mem_cons_of_mem _ (ih a (by simp))

lemma segIdxAux_none {d : ℝ} :
    ∀ {l : List ℝ}, segIdxAux d l = none → ∀ c ∈ l, c ≤ d := by
  intro l
  induction l with
  | nil => simp
  | cons c rest ih =>
    intro h x hx
    simp only [segIdxAux] at h
    split_ifs at h with hc
    rcases List.mem_cons.mp hx with rfl | hx2
    · linarith [not_lt.mp hc]
    · exact ih (Option.map_eq_none'.mp h) x hx2

lemma segIdxAux_some {d : ℝ} :
    ∀ {l : List ℝ} {i : ℕ}, segIdxAux d l = some i →
      i < l.length ∧ d < l.getD i 0 ∧ ∀ k, k < i → l.getD k 0 ≤ d := by
  intro l
  induction l with
  | nil => intro i h; simp [segIdxAux] at h
  | cons c rest ih =>
    intro i h
    simp only [segIdxAux] at h
    split_ifs at h with hc
    · have hi : i = 0 := by
        have := Option.some.inj h
        omega
      subst hi
      exact ⟨by simp, by simpa using hc, fun k hk => absurd hk (by omega)⟩
    · obtain ⟨j, hj, hji⟩ := Option.map_eq_some'.mp h
      obtain ⟨h1, h2, h3⟩ := ih hj
      subst hji
      refine ⟨by simp only [List.length_cons]; omega,
        by simpa [List.getD_cons_succ] using h2, ?_⟩
      intro k hk
      cases k with
      | zero => simpa [List.getD_cons_zero] using not_lt.mp hc
      | succ k2 =>
        simpa [List.getD_cons_succ] using h3 k2 (by omega)

lemma cumAux_eq_cons (c : ℝ) (ls : List ℝ) :
    cumAux c ls = c :: (cumAux c ls).tail := by
  cases ls <;> rfl

lemma cumAux_getD_zero (c : ℝ) (ls : List ℝ) : (cumAux c ls).getD 0 0 = c := by
  cases ls <;> rfl

lemma cumAux_getD_succ (c : ℝ) (ls : List ℝ) (i : ℕ) (h : i < ls.length) :
    (cumAux c ls).getD (i + 1) 0 = (cumAux c ls).getD i 0 + ls.getD i 0 := by
  induction ls generalizing c i with
  | nil => simp at h
  | cons l tl ih =>
    cases i with
    | zero =>
      simp only [cumAux, List.getD_cons_succ, List.getD_cons_zero,
        cumAux_getD_zero]
    | succ i2 =>
      simp only [cumAux, List.getD_cons_succ]
      exact ih (c + l) i2 (by simpa using h)

end FPath

namespace FPath

/-- C8: for a path with at least one control point, distance 0 returns the
first control point; distance totalLength returns the last; any distance at
or beyond the end clamps to the last point; any distance strictly inside
the path falls in a bracketing segment of the cumulative table and the
result is the linear interpolation within that segment; the effective
clamped distance parameter is monotone in the query; and the position only
depends on the query through that clamped parameter. -/
theorem c8_position_at_distance (cps : List Point) (p : Point)
    (rest : List Point) (hcps : cps = p :: rest) :
    getPositionAtDistance cps 0 = p ∧
    getPositionAtDistance cps (totalLength cps) = cps.getLastD (0, 0, 0) ∧
    (∀ d, totalLength cps ≤ d →
      getPositionAtDistance cps d = cps.getLastD (0, 0, 0)) ∧
    (∀ d, 0 < d → d < totalLength cps →
      ∃ j, j + 1 < cps.length ∧
        (cumulativeDistances cps).getD j 0 ≤ d ∧
        d < (cumulativeDistances cps).getD (j + 1) 0 ∧
        (cumulativeDistances cps).getD (j + 1) 0 =
          (cumulativeDistances cps).getD j 0 + (segLengths cps).getD j 0 ∧
        getPositionAtDistance cps d =
          lerp (cps.getD j (0, 0, 0)) (cps.getD (j + 1) (0, 0, 0))
            ((d - (cumulativeDistances cps).getD j 0) /
              (segLengths cps).getD j 0)) ∧
    Monotone (clampDist cps) ∧
    (∀ d, getPositionAtDistance cps d =
      getPositionAtDistance cps (clampDist cps d)) := by
  have hlast : ∀ d, totalLength cps ≤ d →
      getPositionAtDistance cps d = cps.getLastD (0, 0, 0) := by
    intro d hd
    rcases le_or_lt d 0 with hd0 | hd0
    · have htz : totalLength cps = 0 :=
        le_antisymm (hd.trans hd0) (totalLength_nonneg cps)
      unfold getPositionAtDistance
      rw [if_pos hd0]
      exact headD_eq_getLastD_of_total_zero cps htz
    · unfold getPositionAtDistance
      rw [if_neg (not_le.mpr hd0), if_pos hd]
  refine ⟨?_, ?_, hlast, ?_, ?_, ?_⟩
  · unfold getPositionAtDistance
    rw [if_pos le_rfl, hcps]
    rfl
  · exact hlast (totalLength cps) le_rfl
  · intro d hd0 hdt
    have hcons : cumulativeDistances cps =
        0 :: (cumulativeDistances cps).tail := by
      unfold cumulativeDistances
      exact cumAux_eq_cons 0 _
    have hlen_cum : (cumulativeDistances cps).length =
        (segLengths cps).length + 1 := by
      unfold cumulativeDistances
      exact cumAux_length 0 _
    have hlen_tail : (cumulativeDistances cps).tail.length =
        (segLengths cps).length := by
      rw [List.length_tail, hlen_cum]
      omega
    have hgetD_tail : ∀ k, (cumulativeDistances cps).tail.getD k 0 =
        (cumulativeDistances cps).getD (k + 1) 0 := by
      intro k
      conv_rhs => rw [hcons]
      rw [List.getD_cons_succ]
    have hner : ¬ segIdxAux d (cumulativeDistances cps).tail = none := by
      intro hnone
      have hall := segIdxAux_none hnone
      cases htail : (cumulativeDistances cps).tail with
      | nil =>
        have htz : totalLength cps = 0 := by
          unfold totalLength
          rw [hcons, htail]
          rfl
        linarith
      | cons c0 t0 =>
        have hmem : (cumulativeDistances cps).getLastD 0 ∈
            (cumulativeDistances cps).tail := by
          rw [hcons, htail, List.getLastD_cons]
          simp only [List.tail_cons]
          exact getLastD_mem _ _ (by simp)
        have hle := hall _ hmem
        unfold totalLength at hdt
        linarith
    obtain ⟨i, hi⟩ := Option.ne_none_iff_exists'.mp hner
    obtain ⟨hilen, hid, himin⟩ := segIdxAux_some hi
    have hseg : segIdx d (cumulativeDistances cps) = i := by
      unfold segIdx
      rw [hi]
      rfl
    rw [hgetD_tail] at hid
    refine ⟨i, ?_, ?_, hid, ?_, ?_⟩
    · have h2 := segLengths_length cps
      have h3 : cps.length = rest.length + 1 := by rw [hcps]; simp
      rw [hlen_tail] at hilen
      omega
    · cases i with
      | zero =>
        rw [hcons]
        simp only [List.getD_cons_zero]
        linarith
      | succ k =>
        have := himin k (Nat.lt_succ_self k)
        rw [hgetD_tail] at this
        exact this
    · unfold cumulativeDistances
      refine cumAux_getD_succ 0 _ i ?_
      rw [hlen_tail] at hilen
      exact hilen
    · unfold getPositionAtDistance
      rw [if_neg (not_le.mpr hd0), if_neg (not_le.mpr hdt)]
      dsimp only
      rw [hseg]
  · intro d1 d2 h12
    unfold clampDist
    split_ifs <;> linarith [totalLength_nonneg cps]
  · intro d
    unfold clampDist
    split_ifs with h1 h2
    · unfold getPositionAtDistance
      rw [if_pos h1, if_pos le_rfl]
    · rcases le_or_lt (totalLength cps) 0 with ht0 | ht0
      · have htz : totalLength cps = 0 :=
          le_antisymm ht0 (totalLength_nonneg cps)
        unfold getPositionAtDistance
        rw [if_neg h1, if_pos h2, if_pos ht0]
        exact (headD_eq_getLastD_of_total_zero cps htz).symm
      · unfold getPositionAtDistance
        rw [if_neg h1, if_pos h2, if_neg (not_le.mpr ht0), if_pos le_rfl]
    · rfl

/-- C8 (witness): on the concrete two-point path from (0,60,450) to
(0,60,990), distance 0 returns the first control point and the clamped
distance parameter is monotone. -/
theorem c8_witness :
    getPositionAtDistance
        [((0:ℝ), (60:ℝ), (450:ℝ)), ((0:ℝ), (60:ℝ), (990:ℝ))] 0 =
      ((0:ℝ), (60:ℝ), (450:ℝ)) ∧
    Monotone (clampDist
      [((0:ℝ), (60:ℝ), (450:ℝ)), ((0:ℝ), (60:ℝ), (990:ℝ))]) :=
  ⟨(c8_position_at_distance _ ((0:ℝ), (60:ℝ), (450:ℝ))
      [((0:ℝ), (60:ℝ), (990:ℝ))] rfl).1,
    (c8_position_at_distance _ ((0:ℝ), (60:ℝ), (450:ℝ))
      [((0:ℝ), (60:ℝ), (990:ℝ))] rfl).2.2.2.2.1⟩

end FPath
